import Mathlib

/-! Blinky firmware (STM32L152RB): debounce sampler, blink ticker, foreground loop.

A shallow embedding of `Core/Src/main.c`.  The global variables of the
translation unit and the few hardware bits the callbacks touch (the two LED
outputs, the test output, the update-interrupt enable of TIM6 and TIM7) form
one record; every callback and the body of the `while (1)` loop is a function
on that record.  Unsigned C integers are natural numbers, reduced modulo
`2 ^ 16` where the source increments one.
-/

namespace Blinky

/-- The compile-time constant `DEBOUNCE_STABLE_PERIOD` (main.c, line 26). -/
def DEBOUNCE_STABLE_PERIOD : Nat := 10

/-- Modelled from the spec: the result type of `readButtonLine()`, the HAL
enumeration `GPIO_PinState` whose two values are the logical levels 0 and 1
(the HAL headers are not part of the sources). -/
inductive GPIO_PinState where
  | GPIO_PIN_RESET
  | GPIO_PIN_SET
  deriving DecidableEq, Repr

/-- Numeric value of a pin level, as stored into a `uint16_t`. -/
def GPIO_PinState.toNat : GPIO_PinState → Nat
  | .GPIO_PIN_RESET => 0
  | .GPIO_PIN_SET => 1

/-- The timer handles a period-elapsed callback can be entered with: the two
globals `htim6`, `htim7`, or any other address. -/
inductive TimHandle where
  | htim6
  | htim7
  | other
  deriving DecidableEq, Repr

/-- Global variables of main.c together with the hardware state the callbacks
act on. -/
structure State where
  /-- The variable `volatile uint8_t toggleGreenLED` (the tick flag). -/
  toggleGreenLED : Nat
  /-- The variable `volatile uint8_t toggleBlueLED` (declared, never used). -/
  toggleBlueLED : Nat
  /-- The variable `volatile uint16_t currentButton`. -/
  currentButton : Nat
  /-- The variable `volatile uint16_t previousButton`. -/
  previousButton : Nat
  /-- The variable `volatile uint16_t debounceCounter`. -/
  debounceCounter : Nat
  /-- The variable `volatile uint8_t debouncedButtonPressed`. -/
  debouncedButtonPressed : Nat
  /-- The variable `volatile uint8_t debouncedButtonReleased`. -/
  debouncedButtonReleased : Nat
  /-- Update interrupt of TIM6 enabled: the debounce sampler is armed. -/
  tim6Running : Bool
  /-- Update interrupt of TIM7 enabled: the blink ticker runs. -/
  tim7Running : Bool
  /-- Level of the blue LED output (PB6). -/
  LED_BLUE : Bool
  /-- Level of the green LED output (PB7). -/
  LED_GREEN : Bool
  /-- Level of the oscilloscope test output. -/
  OUT_TEST : Bool
  deriving DecidableEq, Repr

/-- Modelled from the spec: `writeTestOutput(level)`, the HAL call
`HAL_GPIO_WritePin(OUT_TEST_GPIO_Port, OUT_TEST_Pin, level)`; drives the
push-pull test output. -/
def writeTestOutput (level : Bool) (s : State) : State :=
  { s with OUT_TEST := level }

/-- Modelled from the spec: `toggleBlueOutput()`, the HAL call
`HAL_GPIO_TogglePin(LED_BLUE_GPIO_Port, LED_BLUE_Pin)`. -/
def toggleBlueOutput (s : State) : State :=
  { s with LED_BLUE := !s.LED_BLUE }

/-- Modelled from the spec: `toggleGreenOutput()`, the HAL call
`HAL_GPIO_TogglePin(LED_GREEN_GPIO_Port, LED_GREEN_Pin)`. -/
def toggleGreenOutput (s : State) : State :=
  { s with LED_GREEN := !s.LED_GREEN }

/-- Modelled from the spec: `armButtonDebounceTimer()`, the HAL call
`HAL_TIM_Base_Start_IT(&htim6)`; enables the periodic 1 ms interrupt and is
idempotent. -/
def armButtonDebounceTimer (s : State) : State :=
  { s with tim6Running := true }

/-- Modelled from the spec: `disarmButtonDebounceTimer()`, the HAL call
`HAL_TIM_Base_Stop_IT(&htim6)`; disables the periodic 1 ms interrupt. -/
def disarmButtonDebounceTimer (s : State) : State :=
  { s with tim6Running := false }

/-- Modelled from the spec: `startBlinkTimer()`, the HAL call
`HAL_TIM_Base_Start_IT(&htim7)`. -/
def startBlinkTimer (s : State) : State :=
  { s with tim7Running := true }

/-- The callback `HAL_TIM_PeriodElapsedCallback` (main.c, lines 193-231).
`pinRead` is the value `HAL_GPIO_ReadPin` returns for the button during this
call; it is only consulted in the `htim6` branch. -/
def HAL_TIM_PeriodElapsedCallback (htim : TimHandle) (pinRead : GPIO_PinState)
    (s : State) : State :=
  if htim = TimHandle.htim6 then
    let s1 := { s with previousButton := s.currentButton }
    let s2 := { s1 with currentButton := pinRead.toNat }
    let s3 :=
      if s2.currentButton = s2.previousButton then
        { s2 with debounceCounter := (s2.debounceCounter + 1) % 2 ^ 16 }
      else
        { s2 with debounceCounter := 0 }
    if s3.debounceCounter ≥ DEBOUNCE_STABLE_PERIOD then
      let s4 := disarmButtonDebounceTimer s3
      let s5 := { s4 with debounceCounter := 0 }
      if s5.currentButton = 0 then
        { s5 with debouncedButtonPressed := 1 }
      else
        { s5 with debouncedButtonReleased := 1 }
    else
      s3
  else if htim = TimHandle.htim7 then
    { s with toggleGreenLED := 1 }
  else
    s

/-- The callback `HAL_GPIO_EXTI_Callback` (main.c, lines 233-240).  The pin
mask `BUTTON_USER_Pin` comes from `main.h`, which is not among the sources, so
it is a parameter. -/
def HAL_GPIO_EXTI_Callback (BUTTON_USER_Pin : Nat) (GPIO_Pin : Nat)
    (s : State) : State :=
  if GPIO_Pin = BUTTON_USER_Pin then
    armButtonDebounceTimer (writeTestOutput true s)
  else
    s

/-- One pass through the body of the `while (1)` loop of `main`
(main.c, lines 62-78), run without interruption. -/
def mainLoopBody (s : State) : State :=
  let s1 :=
    if s.debouncedButtonPressed ≠ 0 then
      { toggleBlueOutput (writeTestOutput false s) with debouncedButtonPressed := 0 }
    else
      s
  let s2 :=
    if s1.debouncedButtonReleased ≠ 0 then
      { s1 with debouncedButtonReleased := 0 }
    else
      s1
  if s2.toggleGreenLED ≠ 0 then
    { toggleGreenOutput s2 with toggleGreenLED := 0 }
  else
    s2

/-- The state in which `main` enters its loop (main.c, lines 32-40 and 51-58):
zero-initialised globals, outputs reset by `MX_GPIO_Init`, `currentButton`
loaded with the level `pinRead` read from the button, TIM7 started. -/
def mainInit (pinRead : GPIO_PinState) : State :=
  startBlinkTimer
    { toggleGreenLED := 0
      toggleBlueLED := 0
      currentButton := pinRead.toNat
      previousButton := 0
      debounceCounter := 0
      debouncedButtonPressed := 0
      debouncedButtonReleased := 0
      tim6Running := false
      tim7Running := false
      LED_BLUE := false
      LED_GREEN := false
      OUT_TEST := false }

/-- The sampler tick `onSampleTick`: the period-elapsed callback entered for
TIM6 with the button reading `r`. -/
def onSampleTick (r : GPIO_PinState) (s : State) : State :=
  HAL_TIM_PeriodElapsedCallback TimHandle.htim6 r s

/-- The blink tick `onBlinkTick`: the period-elapsed callback entered for TIM7
(the pin is not read on this path). -/
def onBlinkTick (s : State) : State :=
  HAL_TIM_PeriodElapsedCallback TimHandle.htim7 GPIO_PinState.GPIO_PIN_RESET s

/-- The edge handler `onButtonEdge`: the EXTI callback entered with the button
pin. -/
def onButtonEdge (BUTTON_USER_Pin : Nat) (s : State) : State :=
  HAL_GPIO_EXTI_Callback BUTTON_USER_Pin BUTTON_USER_Pin s

/-- The value `debounceCounter` holds when line 212 tests it: the old count
incremented (as a 16-bit number) if the reading `r` agrees with
`currentButton`, zero otherwise (main.c, lines 203-210). -/
def sampleCount (s : State) (r : GPIO_PinState) : Nat :=
  if r.toNat = s.currentButton then (s.debounceCounter + 1) % 2 ^ 16 else 0

/-! ## Interleavings of the four execution contexts -/

/-- One atomic activity of the firmware: an EXTI callback with some pin mask, a
period-elapsed callback with some timer handle (and the level the button would
read), or one pass of the foreground loop. -/
inductive Event where
  | exti (GPIO_Pin : Nat)
  | timElapsed (htim : TimHandle) (pinRead : GPIO_PinState)
  | foreground
  deriving DecidableEq, Repr

/-- Effect of one activity on the state. -/
def step (BUTTON_USER_Pin : Nat) (s : State) : Event → State
  | .exti p => HAL_GPIO_EXTI_Callback BUTTON_USER_Pin p s
  | .timElapsed h r => HAL_TIM_PeriodElapsedCallback h r s
  | .foreground => mainLoopBody s

/-- Effect of a sequence of activities, in order of arrival. -/
def run (BUTTON_USER_Pin : Nat) (s : State) : List Event → State
  | [] => s
  | e :: es => run BUTTON_USER_Pin (step BUTTON_USER_Pin s e) es

/-- Does the timer behind a handle currently raise update interrupts? -/
def timerEnabled (s : State) : TimHandle → Bool
  | .htim6 => s.tim6Running
  | .htim7 => s.tim7Running
  | .other => false

/-- One activity as the hardware delivers it: a period-elapsed callback is
entered only while the update interrupt of its timer is enabled. -/
def hwStep (BUTTON_USER_Pin : Nat) (s : State) : Event → State
  | .timElapsed h r =>
      if timerEnabled s h then HAL_TIM_PeriodElapsedCallback h r s else s
  | e => step BUTTON_USER_Pin s e

/-- A sequence of activities as the hardware delivers them. -/
def hwRun (BUTTON_USER_Pin : Nat) (s : State) : List Event → State
  | [] => s
  | e :: es => hwRun BUTTON_USER_Pin (hwStep BUTTON_USER_Pin s e) es

/-- Every button edge of the sequence arrives with the pressed flag consumed:
no `exti` event for the button pin is delivered in a state whose
`debouncedButtonPressed` is still set. -/
def edgesAfterConsume (BUTTON_USER_Pin : Nat) (s : State) : List Event → Bool
  | [] => true
  | e :: es =>
      (match e with
        | .exti p => !(decide (p = BUTTON_USER_Pin) && decide (s.debouncedButtonPressed ≠ 0))
        | _ => true) &&
      edgesAfterConsume BUTTON_USER_Pin (hwStep BUTTON_USER_Pin s e) es

/-- Feeding raw samples to the sampler, one per 1 ms tick: the tick runs while
TIM6 is armed; a sample that arrives while TIM6 is stopped meets no interrupt
and is dropped. -/
def feed (s : State) : List GPIO_PinState → State
  | [] => s
  | r :: rs => feed (if s.tim6Running then onSampleTick r s else s) rs

/-- The edge handler entered `n` times in a row. -/
def edges (BUTTON_USER_Pin : Nat) : Nat → State → State
  | 0, s => s
  | n + 1, s => edges BUTTON_USER_Pin n (onButtonEdge BUTTON_USER_Pin s)

/-- Feeding samples as `feed` does, with `n` extra button edges delivered
before the tick of each entry `(n, r)` (while the sampler is armed). -/
def feedWithEdges (BUTTON_USER_Pin : Nat) (s : State) : List (Nat × GPIO_PinState) → State
  | [] => s
  | (n, r) :: rest =>
      feedWithEdges BUTTON_USER_Pin
        (if s.tim6Running then onSampleTick r (edges BUTTON_USER_Pin n s) else s) rest

/-! ## Runs of equal samples -/

/-- Number of entries equal to `v` at the front of a list. -/
def headRun {α : Type} [DecidableEq α] (v : α) : List α → Nat
  | [] => 0
  | x :: xs => if x = v then headRun v xs + 1 else 0

/-- Does the list contain `k` consecutive equal entries (a window of `k` equal
samples)?  Meant for `k ≥ 1`. -/
def hasRun {α : Type} [DecidableEq α] (k : Nat) : List α → Bool
  | [] => false
  | x :: xs => decide (k ≤ headRun x xs + 1) || hasRun k xs

/-- The reading the sampler holds after a list of samples: the last sample, or
the value `cur` it held before when the list is empty. -/
def lastReading (cur : Nat) : List GPIO_PinState → Nat
  | [] => cur
  | r :: rs => lastReading r.toNat rs

/-! ## The button line driving the firmware -/

/-- A debounced event as the foreground sees it. -/
inductive ButtonEvent where
  | pressed
  | released
  deriving DecidableEq, Repr

/-- A simulation of the board: the level last seen on the button line, the
firmware state, and the debounced events dispatched so far. -/
structure Sim where
  line : GPIO_PinState
  st : State
  log : List ButtonEvent
  deriving DecidableEq, Repr

/-- The interrupts of one millisecond with the raw level `x` on the line: a
level transition enters the edge handler, then the 1 ms tick samples `x` if
TIM6 is armed. -/
def simInterrupts (BUTTON_USER_Pin : Nat) (m : Sim) (x : GPIO_PinState) : State :=
  let s1 := if x ≠ m.line then onButtonEdge BUTTON_USER_Pin m.st else m.st
  if s1.tim6Running then onSampleTick x s1 else s1

/-- One millisecond of the board with the raw level `x` on the line: the
interrupts of that millisecond, then one pass of the foreground loop; the
event flags the foreground finds set are logged. -/
def simStep (BUTTON_USER_Pin : Nat) (m : Sim) (x : GPIO_PinState) : Sim :=
  let s2 := simInterrupts BUTTON_USER_Pin m x
  { line := x
    st := mainLoopBody s2
    log := m.log ++
      ((if s2.debouncedButtonPressed ≠ 0 then [ButtonEvent.pressed] else []) ++
       (if s2.debouncedButtonReleased ≠ 0 then [ButtonEvent.released] else [])) }

/-- A raw trace, one sample per millisecond. -/
def simulate (BUTTON_USER_Pin : Nat) (m : Sim) : List GPIO_PinState → Sim
  | [] => m
  | x :: xs => simulate BUTTON_USER_Pin (simStep BUTTON_USER_Pin m x) xs

/-- The board after startup with the button line idle at `r0`. -/
def simInit (r0 : GPIO_PinState) : Sim :=
  { line := r0, st := mainInit r0, log := [] }

/-- The event a completed debounce at level `v` stands for (active low). -/
def eventOf : GPIO_PinState → ButtonEvent
  | .GPIO_PIN_RESET => ButtonEvent.pressed
  | .GPIO_PIN_SET => ButtonEvent.released

/-- What holds of the simulated board between milliseconds: the sampler holds
the level last seen on the line, the foreground has consumed both button
flags, and the counter is below the period. -/
def SimInv (m : Sim) : Prop :=
  m.st.currentButton = m.line.toNat ∧ m.st.debouncedButtonPressed = 0 ∧
    m.st.debouncedButtonReleased = 0 ∧ m.st.debounceCounter < 10

/-! ## Scenario streams and schedules -/

/-- The sample stream of scenario S2 (bouncy press): 0,1,0,1,0,0,1 followed by
twelve samples of 0, nineteen samples in all. -/
def bouncyPress : List GPIO_PinState :=
  [GPIO_PinState.GPIO_PIN_RESET, GPIO_PinState.GPIO_PIN_SET, GPIO_PinState.GPIO_PIN_RESET,
    GPIO_PinState.GPIO_PIN_SET, GPIO_PinState.GPIO_PIN_RESET, GPIO_PinState.GPIO_PIN_RESET,
    GPIO_PinState.GPIO_PIN_SET] ++ List.replicate 12 GPIO_PinState.GPIO_PIN_RESET

/-- The blink ticker firing `n` times, each tick followed by one pass of the
foreground loop. -/
def blinkCycles : Nat → State → State
  | 0, s => s
  | n + 1, s => blinkCycles n (mainLoopBody (onBlinkTick s))

/-- A stretch of activity with the foreground stalled and no debounce
completing: every event is an edge callback, a blink tick, or a sampler tick
(delivered only while TIM6 is armed) whose count stays below the period. -/
def quietBetween (BUTTON_USER_Pin : Nat) (s : State) : List Event → Bool
  | [] => true
  | e :: es =>
      (match e with
        | .foreground => false
        | .timElapsed .htim6 r => !(s.tim6Running && decide (10 ≤ sampleCount s r))
        | _ => true) &&
      quietBetween BUTTON_USER_Pin (hwStep BUTTON_USER_Pin s e) es

/-- Is the event an EXTI callback? -/
def Event.isExti : Event → Bool
  | .exti _ => true
  | _ => false

/-- No foreground pass of the sequence consumes a pressed flag: every
`foreground` event is delivered in a state whose `debouncedButtonPressed` is
clear. -/
def noPressedConsumed (BUTTON_USER_Pin : Nat) (s : State) : List Event → Bool
  | [] => true
  | e :: es =>
      (match e with
        | .foreground => decide (s.debouncedButtonPressed = 0)
        | _ => true) &&
      noPressedConsumed BUTTON_USER_Pin (hwStep BUTTON_USER_Pin s e) es

/-! ## Readings and windows -/

/-- The readings the sampler compares while it consumes the samples `l`: the
stale value of `currentButton` (reading 0) followed by the samples. -/
def readings (s : State) (l : List GPIO_PinState) : List Nat :=
  s.currentButton :: l.map GPIO_PinState.toNat

/-- The list contains `k` equal consecutive entries. -/
def HasWindow (k : Nat) (xs : List Nat) : Prop :=
  ∃ a v b, xs = a ++ List.replicate k v ++ b

/-- The last `k` entries of the list exist and are equal. -/
def EndsInWindow (k : Nat) (xs : List Nat) : Prop :=
  ∃ a v, xs = a ++ List.replicate k v

/-! ## Clock tree and timer configuration -/

/-- Frequency of the internal oscillator HSI in Hz: 16 MHz, as the comment at
main.c line 52 records (the HAL macro `HSI_VALUE` is not among the sources). -/
def HSI_VALUE : Nat := 16000000

/-- The PLL multiplier selected by `RCC_PLL_MUL6` (main.c, line 95). -/
def PLLMUL : Nat := 6

/-- The PLL divider selected by `RCC_PLL_DIV3` (main.c, line 96). -/
def PLLDIV : Nat := 3

/-- The AHB divider selected by `RCC_SYSCLK_DIV1` (main.c, line 105). -/
def AHBCLKDivider : Nat := 1

/-- The APB1 divider selected by `RCC_HCLK_DIV1` (main.c, line 106). -/
def APB1CLKDivider : Nat := 1

/-- System clock in Hz: the PLL output, `SYSCLKSource = RCC_SYSCLKSOURCE_PLLCLK`
with HSI as PLL source (main.c, lines 93-96 and 104). -/
def SYSCLK : Nat := HSI_VALUE * PLLMUL / PLLDIV

/-- Input clock of TIM6 and TIM7 in Hz: the APB1 clock, doubled by the
hardware when the APB1 divider is not 1. -/
def timerClock : Nat :=
  let pclk1 := SYSCLK / AHBCLKDivider / APB1CLKDivider
  if APB1CLKDivider = 1 then pclk1 else 2 * pclk1

/-- The two fields of `TIM_Base_InitTypeDef` that set the update rate. -/
structure TimInit where
  Prescaler : Nat
  Period : Nat
  deriving DecidableEq, Repr

/-- The fields `htim6.Init` as written by `MX_TIM6_Init` (main.c, lines 120, 122). -/
def htim6Init : TimInit := { Prescaler := 16000 - 1, Period := 2 - 1 }

/-- The fields `htim7.Init` as written by `MX_TIM7_Init` (main.c, lines 142, 144). -/
def htim7Init : TimInit := { Prescaler := 32000 - 1, Period := 250 - 1 }

/-- Timer input cycles between two update interrupts of an up-counting timer:
the prescaler divides by `Prescaler + 1`, the counter wraps every `Period + 1`
counts. -/
def updateCycles (t : TimInit) : Nat := (t.Prescaler + 1) * (t.Period + 1)

/-- The update period in microseconds, rounded down. -/
def updatePeriodMicros (t : TimInit) : Nat := updateCycles t * 1000000 / timerClock

/-! ## Theorems -/

/-- Normal form of the sampler tick: the count after lines 203-210 decides
between the completion branch and the plain update. -/
theorem onSampleTick_eq (s : State) (r : GPIO_PinState) :
    onSampleTick r s =
      if 10 ≤ sampleCount s r then
        { s with
          previousButton := s.currentButton
          currentButton := r.toNat
          debounceCounter := 0
          tim6Running := false
          debouncedButtonPressed := if r.toNat = 0 then 1 else s.debouncedButtonPressed
          debouncedButtonReleased := if r.toNat = 0 then s.debouncedButtonReleased else 1 }
      else
        { s with
          previousButton := s.currentButton
          currentButton := r.toNat
          debounceCounter := sampleCount s r } := by
  simp only [onSampleTick, HAL_TIM_PeriodElapsedCallback, DEBOUNCE_STABLE_PERIOD,
    disarmButtonDebounceTimer, sampleCount, if_true, ge_iff_le]
  split_ifs <;> rfl

/-- The sampler tick when the count stays below the period. -/
theorem onSampleTick_of_lt (s : State) (r : GPIO_PinState) (h : sampleCount s r < 10) :
    onSampleTick r s =
      { s with
        previousButton := s.currentButton
        currentButton := r.toNat
        debounceCounter := sampleCount s r } := by
  rw [onSampleTick_eq, if_neg (Nat.not_le.mpr h)]

/-- The sampler tick when the count reaches the period. -/
theorem onSampleTick_of_ge (s : State) (r : GPIO_PinState) (h : 10 ≤ sampleCount s r) :
    onSampleTick r s =
      { s with
        previousButton := s.currentButton
        currentButton := r.toNat
        debounceCounter := 0
        tim6Running := false
        debouncedButtonPressed := if r.toNat = 0 then 1 else s.debouncedButtonPressed
        debouncedButtonReleased := if r.toNat = 0 then s.debouncedButtonReleased else 1 } := by
  rw [onSampleTick_eq, if_pos h]

/-- C1: one `onSampleTick` from a state whose 16-bit counter is not at its
maximum (every state of the data model, where the count is within 0..10, is
such a state) yields exactly the state of the documented algorithm: the old
`currentButton` moves to `previousButton`, the reading `r` becomes
`currentButton`, the count `c` is the old count plus one when `r` equals the
old `currentButton` and zero otherwise; when `c ≥ 10` the sampler is disarmed,
the counter is zero and the pressed flag (reading 0) or the released flag
(reading 1) is set; when `c < 10` the counter is `c`, and the armed state and
both flags are as before.  Nothing else changes. -/
theorem onSampleTick_algorithm (s : State) (r : GPIO_PinState)
    (hc : s.debounceCounter + 1 < 2 ^ 16) :
    onSampleTick r s =
      (let c := if r.toNat = s.currentButton then s.debounceCounter + 1 else 0
       { s with
         previousButton := s.currentButton
         currentButton := r.toNat
         debounceCounter := if 10 ≤ c then 0 else c
         tim6Running := if 10 ≤ c then false else s.tim6Running
         debouncedButtonPressed :=
           if 10 ≤ c ∧ r = GPIO_PinState.GPIO_PIN_RESET then 1
           else s.debouncedButtonPressed
         debouncedButtonReleased :=
           if 10 ≤ c ∧ r = GPIO_PinState.GPIO_PIN_SET then 1
           else s.debouncedButtonReleased }) := by
  have hmod : (s.debounceCounter + 1) % 2 ^ 16 = s.debounceCounter + 1 :=
    Nat.mod_eq_of_lt hc
  have hcount : sampleCount s r =
      if r.toNat = s.currentButton then s.debounceCounter + 1 else 0 := by
    rw [sampleCount, hmod]
  rw [← hcount]
  by_cases h : 10 ≤ sampleCount s r
  · rw [onSampleTick_of_ge s r h]
    cases r <;> simp [h, GPIO_PinState.toNat]
  · rw [onSampleTick_of_lt s r (Nat.not_le.mp h)]
    simp [h]

/-- Witness for C1: the tenth agreeing reading of 0 completes the debounce. -/
theorem onSampleTick_algorithm_witness :
    (9 : Nat) + 1 < 2 ^ 16 ∧
    onSampleTick GPIO_PinState.GPIO_PIN_RESET
        { mainInit GPIO_PinState.GPIO_PIN_RESET with debounceCounter := 9, tim6Running := true } =
      { mainInit GPIO_PinState.GPIO_PIN_RESET with debouncedButtonPressed := 1 } :=
  ⟨by decide, (onSampleTick_algorithm _ _ (by decide)).trans (by decide)⟩

/-- Normal form of one pass of the foreground loop. -/
theorem mainLoopBody_eq (s : State) :
    mainLoopBody s =
      { s with
        debouncedButtonPressed := 0
        debouncedButtonReleased := 0
        toggleGreenLED := 0
        LED_BLUE := if s.debouncedButtonPressed ≠ 0 then !s.LED_BLUE else s.LED_BLUE
        OUT_TEST := if s.debouncedButtonPressed ≠ 0 then false else s.OUT_TEST
        LED_GREEN := if s.toggleGreenLED ≠ 0 then !s.LED_GREEN else s.LED_GREEN } := by
  obtain ⟨g, b, cur, prev, c, p, r, t6, t7, lb, lg, ot⟩ := s
  by_cases hp : p = 0 <;> by_cases hr : r = 0 <;> by_cases hg : g = 0 <;>
    simp [mainLoopBody, toggleBlueOutput, toggleGreenOutput, writeTestOutput, hp, hr, hg]

/-- C5: one `onSampleTick` changes at most one of the two event flags.  With
`c` the count tested at line 212, a completion (`c ≥ 10`) sets exactly the
flag chosen by the current sample (0 gives pressed, otherwise released) and
leaves the other flag at its previous value; without completion both flags
keep their values. -/
theorem onSampleTick_exclusive (s : State) (r : GPIO_PinState) :
    (onSampleTick r s).debouncedButtonPressed =
        (if 10 ≤ (if r.toNat = s.currentButton then (s.debounceCounter + 1) % 2 ^ 16 else 0)
            ∧ r = GPIO_PinState.GPIO_PIN_RESET
          then 1 else s.debouncedButtonPressed) ∧
    (onSampleTick r s).debouncedButtonReleased =
        (if 10 ≤ (if r.toNat = s.currentButton then (s.debounceCounter + 1) % 2 ^ 16 else 0)
            ∧ r ≠ GPIO_PinState.GPIO_PIN_RESET
          then 1 else s.debouncedButtonReleased) ∧
    ((onSampleTick r s).debouncedButtonPressed = s.debouncedButtonPressed ∨
      (onSampleTick r s).debouncedButtonReleased = s.debouncedButtonReleased) := by
  have hcount : (if r.toNat = s.currentButton then (s.debounceCounter + 1) % 2 ^ 16 else 0)
      = sampleCount s r := rfl
  rw [hcount]
  by_cases h : 10 ≤ sampleCount s r
  · rw [onSampleTick_of_ge s r h]
    cases r <;> simp [h, GPIO_PinState.toNat]
  · rw [onSampleTick_of_lt s r (Nat.not_le.mp h)]
    simp [h]

/-- C6: one uninterrupted pass of the foreground loop leaves all three event
flags clear, toggles the blue output exactly when the pressed flag was set,
drives the test output low when the pressed flag was set and leaves it
otherwise, toggles the green output exactly when the tick flag was set, and
changes nothing else: the released flag has no effect on any output, and
`currentButton`, `previousButton`, `debounceCounter` and the armed state of
the sampler are untouched. -/
theorem mainLoopBody_effect (s : State) :
    mainLoopBody s =
      { toggleGreenLED := 0
        toggleBlueLED := s.toggleBlueLED
        currentButton := s.currentButton
        previousButton := s.previousButton
        debounceCounter := s.debounceCounter
        debouncedButtonPressed := 0
        debouncedButtonReleased := 0
        tim6Running := s.tim6Running
        tim7Running := s.tim7Running
        LED_BLUE := if s.debouncedButtonPressed ≠ 0 then !s.LED_BLUE else s.LED_BLUE
        LED_GREEN := if s.toggleGreenLED ≠ 0 then !s.LED_GREEN else s.LED_GREEN
        OUT_TEST := if s.debouncedButtonPressed ≠ 0 then false else s.OUT_TEST } := by
  rw [mainLoopBody_eq]

/-- C8: single-writer discipline.  A foreground pass leaves every event flag
clear, so it never sets one; each interrupt handler leaves an event flag as it
was or sets it to 1, so it never clears one.  No handler writes the blue or
the green output.  The test output is left alone by the timer callback, is
left alone or raised by the edge callback, and is left alone or lowered by the
foreground pass. -/
theorem flag_ownership (BUTTON_USER_Pin GPIO_Pin : Nat) (htim : TimHandle)
    (r : GPIO_PinState) (s : State) :
    ((mainLoopBody s).debouncedButtonPressed = 0 ∧
      (mainLoopBody s).debouncedButtonReleased = 0 ∧
      (mainLoopBody s).toggleGreenLED = 0) ∧
    (((HAL_GPIO_EXTI_Callback BUTTON_USER_Pin GPIO_Pin s).debouncedButtonPressed
          = s.debouncedButtonPressed ∧
      (HAL_GPIO_EXTI_Callback BUTTON_USER_Pin GPIO_Pin s).debouncedButtonReleased
          = s.debouncedButtonReleased ∧
      (HAL_GPIO_EXTI_Callback BUTTON_USER_Pin GPIO_Pin s).toggleGreenLED
          = s.toggleGreenLED) ∧
     (((HAL_TIM_PeriodElapsedCallback htim r s).debouncedButtonPressed
          = s.debouncedButtonPressed ∨
        (HAL_TIM_PeriodElapsedCallback htim r s).debouncedButtonPressed = 1) ∧
      ((HAL_TIM_PeriodElapsedCallback htim r s).debouncedButtonReleased
          = s.debouncedButtonReleased ∨
        (HAL_TIM_PeriodElapsedCallback htim r s).debouncedButtonReleased = 1) ∧
      ((HAL_TIM_PeriodElapsedCallback htim r s).toggleGreenLED = s.toggleGreenLED ∨
        (HAL_TIM_PeriodElapsedCallback htim r s).toggleGreenLED = 1))) ∧
    ((HAL_GPIO_EXTI_Callback BUTTON_USER_Pin GPIO_Pin s).LED_BLUE = s.LED_BLUE ∧
      (HAL_GPIO_EXTI_Callback BUTTON_USER_Pin GPIO_Pin s).LED_GREEN = s.LED_GREEN ∧
      (HAL_TIM_PeriodElapsedCallback htim r s).LED_BLUE = s.LED_BLUE ∧
      (HAL_TIM_PeriodElapsedCallback htim r s).LED_GREEN = s.LED_GREEN) ∧
    ((HAL_TIM_PeriodElapsedCallback htim r s).OUT_TEST = s.OUT_TEST ∧
      ((HAL_GPIO_EXTI_Callback BUTTON_USER_Pin GPIO_Pin s).OUT_TEST = s.OUT_TEST ∨
        (HAL_GPIO_EXTI_Callback BUTTON_USER_Pin GPIO_Pin s).OUT_TEST = true) ∧
      ((mainLoopBody s).OUT_TEST = s.OUT_TEST ∨ (mainLoopBody s).OUT_TEST = false)) := by
  have hexti : HAL_GPIO_EXTI_Callback BUTTON_USER_Pin GPIO_Pin s = s ∨
      HAL_GPIO_EXTI_Callback BUTTON_USER_Pin GPIO_Pin s =
        { s with OUT_TEST := true, tim6Running := true } := by
    unfold HAL_GPIO_EXTI_Callback
    split_ifs
    · right; rfl
    · left; rfl
  have htimer : HAL_TIM_PeriodElapsedCallback htim r s = s ∨
      HAL_TIM_PeriodElapsedCallback htim r s = { s with toggleGreenLED := 1 } ∨
      HAL_TIM_PeriodElapsedCallback htim r s = onSampleTick r s := by
    cases htim
    · right; right; rfl
    · right; left; rfl
    · left; rfl
  refine ⟨?_, ⟨?_, ?_⟩, ?_, ?_⟩
  · rw [mainLoopBody_eq]; exact ⟨rfl, rfl, rfl⟩
  · rcases hexti with h | h <;> rw [h] <;> exact ⟨rfl, rfl, rfl⟩
  · rcases htimer with h | h | h <;> rw [h]
    · exact ⟨Or.inl rfl, Or.inl rfl, Or.inl rfl⟩
    · exact ⟨Or.inl rfl, Or.inl rfl, Or.inr rfl⟩
    · rw [onSampleTick_eq]
      split_ifs <;> simp
  · rcases hexti with h | h <;> rcases htimer with h2 | h2 | h2 <;> rw [h, h2] <;>
      first
        | exact ⟨rfl, rfl, rfl, rfl⟩
        | (rw [onSampleTick_eq]; split_ifs <;> exact ⟨rfl, rfl, rfl, rfl⟩)
  · refine ⟨?_, ?_, ?_⟩
    · rcases htimer with h2 | h2 | h2 <;> rw [h2]
      · rw [onSampleTick_eq]; split_ifs <;> rfl
    · rcases hexti with h | h <;> rw [h]
      · exact Or.inl rfl
      · exact Or.inr rfl
    · rw [mainLoopBody_eq]
      by_cases hp : s.debouncedButtonPressed = 0
      · left; simp [hp]
      · right; simp [hp]

/-- The sampler tick leaves the counter below `DEBOUNCE_STABLE_PERIOD`. -/
theorem onSampleTick_counter_lt (s : State) (r : GPIO_PinState) :
    (onSampleTick r s).debounceCounter < 10 := by
  by_cases h : 10 ≤ sampleCount s r
  · rw [onSampleTick_of_ge s r h]
    exact Nat.zero_lt_succ 9
  · rw [onSampleTick_of_lt s r (Nat.not_le.mp h)]
    exact Nat.not_le.mp h

/-- Every activity keeps a counter below 10 below 10. -/
theorem step_counter_lt (pin : Nat) (s : State) (e : Event) (h : s.debounceCounter < 10) :
    (step pin s e).debounceCounter < 10 := by
  cases e with
  | exti p =>
    simp only [step, HAL_GPIO_EXTI_Callback]
    split_ifs
    · exact h
    · exact h
  | timElapsed t r =>
    cases t
    · exact onSampleTick_counter_lt s r
    · exact h
    · exact h
  | foreground =>
    simp only [step]
    rw [mainLoopBody_eq]
    exact h

theorem run_counter_lt (pin : Nat) (es : List Event) :
    ∀ s : State, s.debounceCounter < 10 → (run pin s es).debounceCounter < 10 := by
  induction es with
  | nil => intro s h; exact h
  | cons e es ih => intro s h; exact ih _ (step_counter_lt pin s e h)

/-- C9: in every state reached from the startup state by any sequence of edge
callbacks, timer callbacks (sampler ticks and blink ticks, armed or not) and
foreground passes, the 16-bit `debounceCounter` is at most 10. -/
theorem debounceCounter_le_period (BUTTON_USER_Pin : Nat) (r0 : GPIO_PinState)
    (es : List Event) :
    (run BUTTON_USER_Pin (mainInit r0) es).debounceCounter ≤ DEBOUNCE_STABLE_PERIOD := by
  have h := run_counter_lt BUTTON_USER_Pin es (mainInit r0) (by simp [mainInit, startBlinkTimer])
  exact Nat.le_of_lt h

/-! ### Runs of equal entries -/

theorem headRun_lt_of_hasRun_false {α : Type} [DecidableEq α] (k : Nat) (hk : 0 < k) (v : α) :
    ∀ l : List α, hasRun k l = false → headRun v l < k := by
  intro l
  induction l with
  | nil => intro _; exact hk
  | cons x xs _ =>
    intro h
    simp only [hasRun, Bool.or_eq_false_iff, decide_eq_false_iff_not, Nat.not_le] at h
    by_cases hx : x = v
    · subst hx
      simpa [headRun] using h.1
    · simp [headRun, hx, hk]

theorem hasRun_succ_false {α : Type} [DecidableEq α] (k : Nat) :
    ∀ l : List α, hasRun k l = false → hasRun (k + 1) l = false := by
  intro l
  induction l with
  | nil => intro _; rfl
  | cons x xs ih =>
    intro h
    simp only [hasRun, Bool.or_eq_false_iff, decide_eq_false_iff_not, Nat.not_le] at h ⊢
    exact ⟨by omega, ih h.2⟩

theorem headRun_take_le {α : Type} [DecidableEq α] (v : α) :
    ∀ (l : List α) (n : Nat), headRun v (l.take n) ≤ headRun v l := by
  intro l
  induction l with
  | nil => intro n; simp [headRun]
  | cons x xs ih =>
    intro n
    cases n with
    | zero => simp [headRun]
    | succ n =>
      by_cases hx : x = v
      · simpa [headRun, hx] using ih n
      · simp [headRun, hx]

theorem hasRun_take_false {α : Type} [DecidableEq α] (k : Nat) :
    ∀ (l : List α) (n : Nat), hasRun k l = false → hasRun k (l.take n) = false := by
  intro l
  induction l with
  | nil => intro n _; simp [hasRun]
  | cons x xs ih =>
    intro n h
    cases n with
    | zero => simp [hasRun]
    | succ n =>
      simp only [hasRun, Bool.or_eq_false_iff, decide_eq_false_iff_not, Nat.not_le,
        List.take_succ_cons] at h ⊢
      have := headRun_take_le x xs n
      exact ⟨by omega, ih n h.2⟩

theorem headRun_replicate {α : Type} [DecidableEq α] (v : α) (n : Nat) :
    headRun v (List.replicate n v) = n := by
  induction n with
  | zero => rfl
  | succ n ih => simp [List.replicate_succ, headRun, ih]

theorem toNat_injective (a b : GPIO_PinState) (h : a.toNat = b.toNat) : a = b := by
  cases a <;> cases b <;> first | rfl | (exact absurd h (by decide))

/-! ### Feeding samples to an armed sampler -/

theorem feed_disarmed (l : List GPIO_PinState) (s : State) (h : s.tim6Running = false) :
    feed s l = s := by
  induction l with
  | nil => rfl
  | cons r rs ih => simp only [feed, h, Bool.false_eq_true, if_false]; exact ih

theorem feed_append (l1 l2 : List GPIO_PinState) :
    ∀ s : State, feed s (l1 ++ l2) = feed (feed s l1) l2 := by
  induction l1 with
  | nil => intro s; rfl
  | cons r rs ih => intro s; simp only [List.cons_append, feed]; exact ih _

/-- While the current run of equal readings stays short and no later run of
eleven equal samples occurs, feeding samples only moves the sample window and
the counter. -/
theorem feed_no_completion :
    ∀ (l : List GPIO_PinState) (s : State), s.tim6Running = true →
      s.debounceCounter < 10 →
      (∀ v : GPIO_PinState, v.toNat = s.currentButton →
        headRun v l + s.debounceCounter < 10) →
      hasRun 11 l = false →
      ∃ p c, c < 10 ∧ feed s l =
        { s with
          previousButton := p
          currentButton := lastReading s.currentButton l
          debounceCounter := c } := by
  intro l
  induction l with
  | nil =>
    intro s _ hc _ _
    exact ⟨s.previousButton, s.debounceCounter, hc, rfl⟩
  | cons r rs ih =>
    intro s harm hc hhead hrun
    simp only [hasRun, Bool.or_eq_false_iff, decide_eq_false_iff_not, Nat.not_le] at hrun
    have hstep : feed s (r :: rs) = feed (onSampleTick r s) rs := by
      simp only [feed, harm, if_true]
    by_cases hr : r.toNat = s.currentButton
    · have hh := hhead r hr
      simp only [headRun, if_true] at hh
      have hcount : sampleCount s r = s.debounceCounter + 1 := by
        simp only [sampleCount, hr, if_true]
        exact Nat.mod_eq_of_lt (by omega)
      have htick := onSampleTick_of_lt s r (by rw [hcount]; omega)
      rw [hcount] at htick
      obtain ⟨p, c, hc', hfeed⟩ := ih (onSampleTick r s)
        (by rw [htick]; exact harm) (by rw [htick]; show s.debounceCounter + 1 < 10; omega)
        (by
          intro v hv
          rw [htick] at hv ⊢
          have hvr : v = r := toNat_injective v r hv
          subst hvr
          show headRun v rs + (s.debounceCounter + 1) < 10
          omega)
        hrun.2
      refine ⟨p, c, hc', ?_⟩
      rw [hstep, hfeed, htick]
      rfl
    · have hcount : sampleCount s r = 0 := by
        simp only [sampleCount, hr, if_false]
      have htick := onSampleTick_of_lt s r (by rw [hcount]; exact Nat.zero_lt_succ 9)
      rw [hcount] at htick
      obtain ⟨p, c, hc', hfeed⟩ := ih (onSampleTick r s)
        (by rw [htick]; exact harm) (by rw [htick]; exact Nat.zero_lt_succ 9)
        (by
          intro v hv
          rw [htick] at hv ⊢
          have hvr : v = r := toNat_injective v r hv
          subst hvr
          show headRun v rs + 0 < 10
          omega)
        hrun.2
      refine ⟨p, c, hc', ?_⟩
      rw [hstep, hfeed, htick]
      rfl

/-- A block of `n` samples equal to the held reading completes the debounce as
soon as the counter reaches 10; the rest of the block is dropped. -/
theorem feed_block (v : GPIO_PinState) :
    ∀ (n : Nat) (s : State), s.tim6Running = true → s.currentButton = v.toNat →
      s.debounceCounter < 10 → 10 ≤ s.debounceCounter + n →
      feed s (List.replicate n v) =
        { s with
          previousButton := v.toNat
          debounceCounter := 0
          tim6Running := false
          debouncedButtonPressed := if v.toNat = 0 then 1 else s.debouncedButtonPressed
          debouncedButtonReleased := if v.toNat = 0 then s.debouncedButtonReleased else 1 } := by
  intro n
  induction n with
  | zero => intro s _ _ hc hn; omega
  | succ n ih =>
    intro s harm hcur hc hn
    have hstep : feed s (List.replicate (n + 1) v) = feed (onSampleTick v s) (List.replicate n v) := by
      simp only [List.replicate_succ, feed, harm, if_true]
    have hcount : sampleCount s v = s.debounceCounter + 1 := by
      simp only [sampleCount, hcur, if_true]
      exact Nat.mod_eq_of_lt (by omega)
    by_cases hdone : 10 ≤ s.debounceCounter + 1
    · have htick := onSampleTick_of_ge s v (by rw [hcount]; exact hdone)
      rw [hstep, feed_disarmed _ _ (by rw [htick]), htick, hcur]
    · have htick := onSampleTick_of_lt s v (by rw [hcount]; omega)
      rw [hcount] at htick
      rw [hstep, ih (onSampleTick v s) (by rw [htick]; exact harm) (by rw [htick])
        (by rw [htick]; show s.debounceCounter + 1 < 10; omega)
        (by rw [htick]; show 10 ≤ s.debounceCounter + 1 + n; omega), htick]
      simp [hcur]

/-- C3: from a freshly armed sampler (counter 0, both event flags clear,
whatever `currentButton` holds), a sample sequence without a window of 10
consecutive equal samples sets neither event flag at any tick of the run, and
the sampler is still armed at the end. -/
theorem no_event_without_stability (s : State) (l : List GPIO_PinState)
    (harm : s.tim6Running = true) (hc : s.debounceCounter = 0)
    (hp : s.debouncedButtonPressed = 0) (hr : s.debouncedButtonReleased = 0)
    (hrun : hasRun 10 l = false) :
    (∀ n : Nat,
      (feed s (l.take n)).debouncedButtonPressed = 0 ∧
      (feed s (l.take n)).debouncedButtonReleased = 0 ∧
      (feed s (l.take n)).tim6Running = true) ∧
    (feed s l).tim6Running = true := by
  have key : ∀ l' : List GPIO_PinState, hasRun 10 l' = false →
      (feed s l').debouncedButtonPressed = 0 ∧
      (feed s l').debouncedButtonReleased = 0 ∧
      (feed s l').tim6Running = true := by
    intro l' h'
    obtain ⟨p, c, _, hfeed⟩ := feed_no_completion l' s harm (by rw [hc]; exact Nat.zero_lt_succ 9)
      (by
        intro v _
        have := headRun_lt_of_hasRun_false 10 (Nat.zero_lt_succ 9) v l' h'
        omega)
      (hasRun_succ_false 10 l' h')
    rw [hfeed]
    exact ⟨hp, hr, harm⟩
  exact ⟨fun n => key _ (hasRun_take_false 10 l n hrun), (key l hrun).2.2⟩

/-- Witness for C3: the bouncing samples 0,1,0,1,0,0,1 after an edge at
startup. -/
theorem no_event_without_stability_witness :
    hasRun 10 [GPIO_PinState.GPIO_PIN_RESET, GPIO_PinState.GPIO_PIN_SET,
      GPIO_PinState.GPIO_PIN_RESET, GPIO_PinState.GPIO_PIN_SET, GPIO_PinState.GPIO_PIN_RESET,
      GPIO_PinState.GPIO_PIN_RESET, GPIO_PinState.GPIO_PIN_SET] = false ∧
    (feed (onButtonEdge 64 (mainInit GPIO_PinState.GPIO_PIN_SET))
      [GPIO_PinState.GPIO_PIN_RESET, GPIO_PinState.GPIO_PIN_SET,
        GPIO_PinState.GPIO_PIN_RESET, GPIO_PinState.GPIO_PIN_SET, GPIO_PinState.GPIO_PIN_RESET,
        GPIO_PinState.GPIO_PIN_RESET, GPIO_PinState.GPIO_PIN_SET]).tim6Running = true :=
  ⟨by decide,
    (no_event_without_stability (onButtonEdge 64 (mainInit GPIO_PinState.GPIO_PIN_SET)) _
      (by decide) (by decide) (by decide) (by decide) (by decide)).2⟩

/-- C2, as stated, fails: a freshly armed sampler that holds the reading 1 is
fed ten samples of 0; the last 10 samples are all equal, yet no event flag is
set and the sampler is still armed. -/
theorem bounded_integration_counterexample :
    ¬ ∀ (s : State) (l : List GPIO_PinState) (v : GPIO_PinState),
        s.tim6Running = true → s.debounceCounter = 0 →
        s.debouncedButtonPressed = 0 → s.debouncedButtonReleased = 0 →
        (∃ pre, l = pre ++ List.replicate 10 v) →
        (feed s l).tim6Running = false ∧
        (feed s l).debouncedButtonPressed = (if v = GPIO_PinState.GPIO_PIN_RESET then 1 else 0) ∧
        (feed s l).debouncedButtonReleased = (if v = GPIO_PinState.GPIO_PIN_RESET then 0 else 1) := by
  intro h
  have h1 := h (onButtonEdge 64 (mainInit GPIO_PinState.GPIO_PIN_SET))
    (List.replicate 10 GPIO_PinState.GPIO_PIN_RESET) GPIO_PinState.GPIO_PIN_RESET
    (by decide) (by decide) (by decide) (by decide) ⟨[], rfl⟩
  exact absurd h1.1 (by decide)

/-- C2, amended: from a freshly armed sampler (counter 0, both event flags
clear, whatever `currentButton` holds), feed `pre` followed by `n ≥ 10` equal
samples `v`, where `pre` has no window of 10 equal samples and the reading
just before the final block (the last sample of `pre`, or the held
`currentButton` when `pre` is empty) also equals `v`.  Then exactly one event
flag is set, the one matching `v` (pressed for 0, released for 1), and the
sampler is disarmed. -/
theorem bounded_integration (s : State) (pre : List GPIO_PinState) (v : GPIO_PinState)
    (n : Nat) (harm : s.tim6Running = true) (hc : s.debounceCounter = 0)
    (hp : s.debouncedButtonPressed = 0) (hr : s.debouncedButtonReleased = 0)
    (hpre : hasRun 10 pre = false) (hlast : lastReading s.currentButton pre = v.toNat)
    (hn : 10 ≤ n) :
    (feed s (pre ++ List.replicate n v)).tim6Running = false ∧
    (feed s (pre ++ List.replicate n v)).debouncedButtonPressed =
      (if v = GPIO_PinState.GPIO_PIN_RESET then 1 else 0) ∧
    (feed s (pre ++ List.replicate n v)).debouncedButtonReleased =
      (if v = GPIO_PinState.GPIO_PIN_RESET then 0 else 1) := by
  obtain ⟨p, c, hc', hfeed⟩ := feed_no_completion pre s harm
    (by rw [hc]; exact Nat.zero_lt_succ 9)
    (by
      intro w _
      have := headRun_lt_of_hasRun_false 10 (Nat.zero_lt_succ 9) w pre hpre
      omega)
    (hasRun_succ_false 10 pre hpre)
  rw [feed_append, feed_block v n (feed s pre) (by rw [hfeed]; exact harm)
    (by rw [hfeed]; exact hlast) (by rw [hfeed]; exact hc') (by rw [hfeed]; show 10 ≤ c + n; omega),
    hfeed]
  cases v <;> simp [GPIO_PinState.toNat, hp, hr]

/-- Witness for the amended C2 (scenario S1 with the line already read as 0):
after an edge, 15 consecutive samples of 0 leave the pressed flag set, the
released flag clear and the sampler disarmed. -/
theorem bounded_integration_witness :
    hasRun 10 (List.replicate 5 GPIO_PinState.GPIO_PIN_RESET) = false ∧
    (feed (onButtonEdge 64 (mainInit GPIO_PinState.GPIO_PIN_RESET))
        (List.replicate 5 GPIO_PinState.GPIO_PIN_RESET ++
          List.replicate 10 GPIO_PinState.GPIO_PIN_RESET)).tim6Running = false ∧
    (feed (onButtonEdge 64 (mainInit GPIO_PinState.GPIO_PIN_RESET))
        (List.replicate 5 GPIO_PinState.GPIO_PIN_RESET ++
          List.replicate 10 GPIO_PinState.GPIO_PIN_RESET)).debouncedButtonPressed = 1 ∧
    (feed (onButtonEdge 64 (mainInit GPIO_PinState.GPIO_PIN_RESET))
        (List.replicate 5 GPIO_PinState.GPIO_PIN_RESET ++
          List.replicate 10 GPIO_PinState.GPIO_PIN_RESET)).debouncedButtonReleased = 0 :=
  ⟨by decide,
    bounded_integration (onButtonEdge 64 (mainInit GPIO_PinState.GPIO_PIN_RESET))
      (List.replicate 5 GPIO_PinState.GPIO_PIN_RESET) GPIO_PinState.GPIO_PIN_RESET 10
      (by decide) (by decide) (by decide) (by decide) (by decide) (by decide) (by decide)⟩

/-! ### Edges while armed -/

/-- Normal form of the edge callback. -/
theorem HAL_GPIO_EXTI_Callback_eq (pin p : Nat) (s : State) :
    HAL_GPIO_EXTI_Callback pin p s =
      if p = pin then { s with OUT_TEST := true, tim6Running := true } else s := by
  unfold HAL_GPIO_EXTI_Callback
  split_ifs <;> rfl

/-- Any number of edges on an armed sampler changes the test output at most. -/
theorem edges_armed (pin : Nat) :
    ∀ (n : Nat) (s : State), s.tim6Running = true →
      edges pin n s = { s with OUT_TEST := (edges pin n s).OUT_TEST } := by
  intro n
  induction n with
  | zero => intro s _; rfl
  | succ n ih =>
    intro s harm
    have hedge : onButtonEdge pin s = { s with OUT_TEST := true } := by
      rw [onButtonEdge, HAL_GPIO_EXTI_Callback_eq, if_pos rfl]
      obtain ⟨g, b, cur, prev, c, p, r, t6, t7, lb, lg, ot⟩ := s
      simp only [State.mk.injEq, true_and, and_true] at harm ⊢
      exact harm.symm
    have h := ih (onButtonEdge pin s) (by rw [hedge]; exact harm)
    simp only [edges]
    rw [h, hedge]

/-- The sampler tick neither reads nor writes the test output. -/
theorem onSampleTick_OUT_TEST (r : GPIO_PinState) (s : State) (b : Bool) :
    onSampleTick r { s with OUT_TEST := b } = { onSampleTick r s with OUT_TEST := b } := by
  rw [onSampleTick_eq, onSampleTick_eq]
  have hcount : sampleCount { s with OUT_TEST := b } r = sampleCount s r := rfl
  rw [hcount]
  split_ifs <;> rfl

theorem feedWithEdges_eq (pin : Nat) :
    ∀ (l : List (Nat × GPIO_PinState)) (s : State) (b : Bool),
      ∃ b', feedWithEdges pin { s with OUT_TEST := b } l =
        { feed s (l.map Prod.snd) with OUT_TEST := b' } := by
  intro l
  induction l with
  | nil => intro s b; exact ⟨b, rfl⟩
  | cons x xs ih =>
    intro s b
    obtain ⟨n, r⟩ := x
    by_cases harm : s.tim6Running = true
    · have harm' : ({ s with OUT_TEST := b } : State).tim6Running = true := harm
      have hstep : feedWithEdges pin { s with OUT_TEST := b } ((n, r) :: xs) =
          feedWithEdges pin (onSampleTick r (edges pin n { s with OUT_TEST := b })) xs := by
        simp only [feedWithEdges, harm, if_true]
      have hfeed : feed s (((n, r) :: xs).map Prod.snd) = feed (onSampleTick r s) (xs.map Prod.snd) := by
        simp only [List.map_cons, feed, harm, if_true]
      rw [hstep, hfeed, edges_armed pin n _ harm']
      have hst : ({ ({ s with OUT_TEST := b } : State) with
          OUT_TEST := (edges pin n { s with OUT_TEST := b }).OUT_TEST } : State) =
          { s with OUT_TEST := (edges pin n { s with OUT_TEST := b }).OUT_TEST } := rfl
      rw [hst, onSampleTick_OUT_TEST]
      exact ih (onSampleTick r s) _
    · have hoff : s.tim6Running = false := by simpa using harm
      have hoff' : ({ s with OUT_TEST := b } : State).tim6Running = false := hoff
      have hstep : feedWithEdges pin { s with OUT_TEST := b } ((n, r) :: xs) =
          feedWithEdges pin { s with OUT_TEST := b } xs := by
        simp only [feedWithEdges, hoff, Bool.false_eq_true, if_false]
      have hfeed : feed s (((n, r) :: xs).map Prod.snd) = feed s (xs.map Prod.snd) := by
        simp only [List.map_cons, feed, hoff, Bool.false_eq_true, if_false]
      rw [hstep, hfeed]
      exact ih s b

/-- C7: the edge callback with the button pin only raises the test output and
arms the sampler, and with any other pin it changes nothing; the counter, the
two sample slots, the three event flags and the blue and green outputs are
never touched.  Consequently, for every sample sequence and every number of
extra edges delivered before each tick while the sampler is armed, the state
after every tick of the run equals the state of the run without those edges
in every field except possibly the test output (so the event is emitted at the
same tick). -/
theorem onButtonEdge_idempotent_arm (BUTTON_USER_Pin GPIO_Pin : Nat) (s : State)
    (l : List (Nat × GPIO_PinState)) (k : Nat) :
    HAL_GPIO_EXTI_Callback BUTTON_USER_Pin GPIO_Pin s =
      (if GPIO_Pin = BUTTON_USER_Pin then
        { toggleGreenLED := s.toggleGreenLED
          toggleBlueLED := s.toggleBlueLED
          currentButton := s.currentButton
          previousButton := s.previousButton
          debounceCounter := s.debounceCounter
          debouncedButtonPressed := s.debouncedButtonPressed
          debouncedButtonReleased := s.debouncedButtonReleased
          tim6Running := true
          tim7Running := s.tim7Running
          LED_BLUE := s.LED_BLUE
          LED_GREEN := s.LED_GREEN
          OUT_TEST := true }
      else s) ∧
    feedWithEdges BUTTON_USER_Pin s (l.take k) =
      { feed s ((l.take k).map Prod.snd) with
        OUT_TEST := (feedWithEdges BUTTON_USER_Pin s (l.take k)).OUT_TEST } := by
  refine ⟨HAL_GPIO_EXTI_Callback_eq _ _ _, ?_⟩
  obtain ⟨b', hb⟩ := feedWithEdges_eq BUTTON_USER_Pin (l.take k) s s.OUT_TEST
  have hs : ({ s with OUT_TEST := s.OUT_TEST } : State) = s := rfl
  rw [hs] at hb
  rw [hb]

/-! ### The test output while armed -/

/-- C10, as stated, fails: from startup with the line idle at 1 a press is
debounced (edge, eleven samples of 0), a further edge re-arms the sampler
before the foreground has run, and the foreground pass that then consumes the
pressed flag lowers the test output while the sampler is armed. -/
theorem armed_test_high_counterexample :
    ¬ ∀ (BUTTON_USER_Pin : Nat) (r0 : GPIO_PinState) (es : List Event),
        (hwRun BUTTON_USER_Pin (mainInit r0) es).tim6Running = true →
        (hwRun BUTTON_USER_Pin (mainInit r0) es).OUT_TEST = true := by
  intro h
  have h1 := h 64 GPIO_PinState.GPIO_PIN_SET
    ([Event.exti 64] ++
      List.replicate 11 (Event.timElapsed TimHandle.htim6 GPIO_PinState.GPIO_PIN_RESET) ++
      [Event.exti 64, Event.foreground]) (by decide)
  exact absurd h1 (by decide)

/-- The invariant behind the amended C10: an armed sampler has the test output
high and no pressed flag pending. -/
theorem hwStep_armed_inv (pin : Nat) (s : State) (e : Event)
    (hedge : edgesAfterConsume pin s [e] = true)
    (hinv : s.tim6Running = true → s.OUT_TEST = true ∧ s.debouncedButtonPressed = 0) :
    (hwStep pin s e).tim6Running = true →
      (hwStep pin s e).OUT_TEST = true ∧ (hwStep pin s e).debouncedButtonPressed = 0 := by
  cases e with
  | exti p =>
    simp only [hwStep, step]
    rw [HAL_GPIO_EXTI_Callback_eq]
    by_cases hp : p = pin
    · rw [if_pos hp]
      intro _
      refine ⟨rfl, ?_⟩
      simpa [edgesAfterConsume, hp] using hedge
    · rw [if_neg hp]
      exact hinv
  | timElapsed t r =>
    cases t with
    | htim6 =>
      simp only [hwStep, timerEnabled]
      by_cases harm : s.tim6Running = true
      · rw [if_pos harm]
        have ht : HAL_TIM_PeriodElapsedCallback TimHandle.htim6 r s = onSampleTick r s := rfl
        rw [ht]
        by_cases hdone : 10 ≤ sampleCount s r
        · rw [onSampleTick_of_ge s r hdone]
          intro hcontra
          exact absurd hcontra (by simp)
        · rw [onSampleTick_of_lt s r (Nat.not_le.mp hdone)]
          exact hinv
      · rw [if_neg harm]
        exact hinv
    | htim7 =>
      simp only [hwStep, timerEnabled]
      split_ifs
      · exact hinv
      · exact hinv
    | other =>
      simp only [hwStep, timerEnabled, Bool.false_eq_true, if_false]
      exact hinv
  | foreground =>
    simp only [hwStep, step]
    rw [mainLoopBody_eq]
    intro harm
    have h := hinv harm
    exact ⟨by simp [h.1, h.2], rfl⟩

theorem hwRun_armed_inv (pin : Nat) :
    ∀ (es : List Event) (s : State), edgesAfterConsume pin s es = true →
      (s.tim6Running = true → s.OUT_TEST = true ∧ s.debouncedButtonPressed = 0) →
      (hwRun pin s es).tim6Running = true →
        (hwRun pin s es).OUT_TEST = true ∧ (hwRun pin s es).debouncedButtonPressed = 0 := by
  intro es
  induction es with
  | nil => intro s _ hinv; exact hinv
  | cons e es ih =>
    intro s hedge hinv
    simp only [edgesAfterConsume, Bool.and_eq_true] at hedge
    exact ih (hwStep pin s e) hedge.2
      (hwStep_armed_inv pin s e (by simp only [edgesAfterConsume, Bool.and_eq_true]; exact ⟨hedge.1, trivial⟩) hinv)

/-- C10, amended: in every state reached from startup by edge callbacks,
sampler ticks (only while armed), blink ticks and foreground passes, where no
button edge arrives while a pressed flag is still waiting for the foreground,
an armed sampler has the test output high. -/
theorem armed_test_high (BUTTON_USER_Pin : Nat) (r0 : GPIO_PinState) (es : List Event)
    (hedge : edgesAfterConsume BUTTON_USER_Pin (mainInit r0) es = true)
    (harm : (hwRun BUTTON_USER_Pin (mainInit r0) es).tim6Running = true) :
    (hwRun BUTTON_USER_Pin (mainInit r0) es).OUT_TEST = true :=
  (hwRun_armed_inv BUTTON_USER_Pin es (mainInit r0) hedge
    (fun h => absurd h (by simp [mainInit, startBlinkTimer])) harm).1

/-- Witness for the amended C10: an edge, five bouncing samples and a
foreground pass. -/
theorem armed_test_high_witness :
    edgesAfterConsume 64 (mainInit GPIO_PinState.GPIO_PIN_SET)
      [Event.exti 64, Event.timElapsed TimHandle.htim6 GPIO_PinState.GPIO_PIN_RESET,
        Event.timElapsed TimHandle.htim6 GPIO_PinState.GPIO_PIN_SET, Event.exti 64,
        Event.timElapsed TimHandle.htim7 GPIO_PinState.GPIO_PIN_SET, Event.foreground] = true ∧
    (hwRun 64 (mainInit GPIO_PinState.GPIO_PIN_SET)
      [Event.exti 64, Event.timElapsed TimHandle.htim6 GPIO_PinState.GPIO_PIN_RESET,
        Event.timElapsed TimHandle.htim6 GPIO_PinState.GPIO_PIN_SET, Event.exti 64,
        Event.timElapsed TimHandle.htim7 GPIO_PinState.GPIO_PIN_SET, Event.foreground]).tim6Running
      = true ∧
    (hwRun 64 (mainInit GPIO_PinState.GPIO_PIN_SET)
      [Event.exti 64, Event.timElapsed TimHandle.htim6 GPIO_PinState.GPIO_PIN_RESET,
        Event.timElapsed TimHandle.htim6 GPIO_PinState.GPIO_PIN_SET, Event.exti 64,
        Event.timElapsed TimHandle.htim7 GPIO_PinState.GPIO_PIN_SET, Event.foreground]).OUT_TEST
      = true :=
  ⟨by decide, by decide,
    armed_test_high 64 GPIO_PinState.GPIO_PIN_SET _ (by decide) (by decide)⟩

/-! ### One actuation of the button -/

/-- C4, as stated, fails: from startup with the line idle at 1, ten samples of
0 followed by ten samples of 1 (no bouncing) produce no event at all. -/
theorem one_event_per_actuation_counterexample :
    ¬ ∀ (BUTTON_USER_Pin : Nat) (B1 B2 : List GPIO_PinState) (k m : Nat),
        10 ≤ k → 10 ≤ m → hasRun 10 B1 = false → hasRun 10 B2 = false →
        (simulate BUTTON_USER_Pin (simInit GPIO_PinState.GPIO_PIN_SET)
          (B1 ++ List.replicate k GPIO_PinState.GPIO_PIN_RESET ++ B2 ++
            List.replicate m GPIO_PinState.GPIO_PIN_SET)).log
          = [ButtonEvent.pressed, ButtonEvent.released] := by
  intro h
  have h1 := h 64 [] [] 10 10 (Nat.le_refl 10) (Nat.le_refl 10) rfl rfl
  exact absurd h1 (by decide)

theorem simulate_append (pin : Nat) (l1 l2 : List GPIO_PinState) :
    ∀ m : Sim, simulate pin m (l1 ++ l2) = simulate pin (simulate pin m l1) l2 := by
  induction l1 with
  | nil => intro m; rfl
  | cons x xs ih => intro m; simp only [List.cons_append, simulate]; exact ih _

theorem toNat_ne (a b : GPIO_PinState) (h : a ≠ b) : a.toNat ≠ b.toNat :=
  fun hab => h (toNat_injective a b hab)

/-- A level transition arms the sampler and restarts the count. -/
theorem simInterrupts_transition (pin : Nat) (m : Sim) (x : GPIO_PinState)
    (hcur : m.st.currentButton = m.line.toNat) (hx : x ≠ m.line) :
    simInterrupts pin m x =
      { m.st with
        previousButton := m.st.currentButton
        currentButton := x.toNat
        debounceCounter := 0
        tim6Running := true
        OUT_TEST := true } := by
  have hedge : onButtonEdge pin m.st = { m.st with OUT_TEST := true, tim6Running := true } := by
    rw [onButtonEdge, HAL_GPIO_EXTI_Callback_eq, if_pos rfl]
  have hcount : sampleCount { m.st with OUT_TEST := true, tim6Running := true } x = 0 := by
    have hne : x.toNat ≠ m.st.currentButton := by rw [hcur]; exact toNat_ne x m.line hx
    simp only [sampleCount, hne, if_false]
  simp only [simInterrupts, hx, ne_eq, not_false_eq_true, if_true, hedge]
  rw [onSampleTick_of_lt _ _ (by rw [hcount]; exact Nat.zero_lt_succ 9), hcount]

/-- A steady sample on an armed sampler advances the count. -/
theorem simInterrupts_count (pin : Nat) (m : Sim) (x : GPIO_PinState)
    (hcur : m.st.currentButton = m.line.toNat) (hx : x = m.line)
    (harm : m.st.tim6Running = true) (hc : m.st.debounceCounter + 1 < 10) :
    simInterrupts pin m x =
      { m.st with
        previousButton := m.st.currentButton
        currentButton := x.toNat
        debounceCounter := m.st.debounceCounter + 1 } := by
  have hcount : sampleCount m.st x = m.st.debounceCounter + 1 := by
    have he : x.toNat = m.st.currentButton := by rw [hcur, hx]
    simp only [sampleCount, he, if_true]
    exact Nat.mod_eq_of_lt (by omega)
  simp only [simInterrupts, hx, ne_eq, not_true_eq_false, if_false, harm, if_true]
  rw [← hx, onSampleTick_of_lt _ _ (by rw [hcount]; exact hc), hcount, harm]

/-- The tenth steady sample on an armed sampler completes the debounce. -/
theorem simInterrupts_complete (pin : Nat) (m : Sim) (x : GPIO_PinState)
    (hcur : m.st.currentButton = m.line.toNat) (hx : x = m.line)
    (harm : m.st.tim6Running = true) (hc : m.st.debounceCounter < 10)
    (hdone : 10 ≤ m.st.debounceCounter + 1) :
    simInterrupts pin m x =
      { m.st with
        previousButton := m.st.currentButton
        currentButton := x.toNat
        debounceCounter := 0
        tim6Running := false
        debouncedButtonPressed := if x.toNat = 0 then 1 else m.st.debouncedButtonPressed
        debouncedButtonReleased := if x.toNat = 0 then m.st.debouncedButtonReleased else 1 } := by
  have hcount : sampleCount m.st x = m.st.debounceCounter + 1 := by
    have he : x.toNat = m.st.currentButton := by rw [hcur, hx]
    simp only [sampleCount, he, if_true]
    exact Nat.mod_eq_of_lt (by omega)
  simp only [simInterrupts, hx, ne_eq, not_true_eq_false, if_false, harm, if_true]
  rw [← hx, onSampleTick_of_ge _ _ (by rw [hcount]; exact hdone)]

/-- A steady sample on an idle sampler causes no interrupt. -/
theorem simInterrupts_idle (pin : Nat) (m : Sim) (x : GPIO_PinState)
    (hx : x = m.line) (hoff : m.st.tim6Running = false) :
    simInterrupts pin m x = m.st := by
  simp only [simInterrupts, hx, ne_eq, not_true_eq_false, if_false, hoff, Bool.false_eq_true]

theorem simStep_of (pin : Nat) (m : Sim) (x : GPIO_PinState) (s2 : State)
    (h : simInterrupts pin m x = s2) :
    simStep pin m x =
      { line := x
        st := mainLoopBody s2
        log := m.log ++
          ((if s2.debouncedButtonPressed ≠ 0 then [ButtonEvent.pressed] else []) ++
           (if s2.debouncedButtonReleased ≠ 0 then [ButtonEvent.released] else [])) } := by
  subst h
  rfl

theorem simStep_transition (pin : Nat) (m : Sim) (x : GPIO_PinState)
    (hinv : SimInv m) (hx : x ≠ m.line) :
    SimInv (simStep pin m x) ∧ (simStep pin m x).line = x ∧
      (simStep pin m x).st.tim6Running = true ∧
      (simStep pin m x).st.debounceCounter = 0 ∧ (simStep pin m x).log = m.log := by
  obtain ⟨hcur, hp, hr, _⟩ := hinv
  rw [simStep_of pin m x _ (simInterrupts_transition pin m x hcur hx)]
  simp only [mainLoopBody_eq, SimInv, hp, hr]
  simp

theorem simStep_count (pin : Nat) (m : Sim) (x : GPIO_PinState)
    (hinv : SimInv m) (hx : x = m.line) (harm : m.st.tim6Running = true)
    (hc : m.st.debounceCounter + 1 < 10) :
    SimInv (simStep pin m x) ∧ (simStep pin m x).line = x ∧
      (simStep pin m x).st.tim6Running = true ∧
      (simStep pin m x).st.debounceCounter = m.st.debounceCounter + 1 ∧
      (simStep pin m x).log = m.log := by
  obtain ⟨hcur, hp, hr, _⟩ := hinv
  rw [simStep_of pin m x _ (simInterrupts_count pin m x hcur hx harm hc)]
  simp only [mainLoopBody_eq, SimInv, hp, hr, harm]
  simp [hc]

theorem simStep_complete (pin : Nat) (m : Sim) (x : GPIO_PinState)
    (hinv : SimInv m) (hx : x = m.line) (harm : m.st.tim6Running = true)
    (hdone : 10 ≤ m.st.debounceCounter + 1) :
    SimInv (simStep pin m x) ∧ (simStep pin m x).line = x ∧
      (simStep pin m x).st.tim6Running = false ∧
      (simStep pin m x).log = m.log ++ [eventOf x] := by
  obtain ⟨hcur, hp, hr, hc⟩ := hinv
  rw [simStep_of pin m x _ (simInterrupts_complete pin m x hcur hx harm hc hdone)]
  simp only [mainLoopBody_eq, SimInv, hp, hr]
  cases x <;> simp [GPIO_PinState.toNat, eventOf]

theorem simStep_idle (pin : Nat) (m : Sim) (x : GPIO_PinState)
    (hinv : SimInv m) (hx : x = m.line) (hoff : m.st.tim6Running = false) :
    SimInv (simStep pin m x) ∧ (simStep pin m x).line = x ∧
      (simStep pin m x).st.tim6Running = false ∧ (simStep pin m x).log = m.log := by
  obtain ⟨hcur, hp, hr, hc⟩ := hinv
  rw [simStep_of pin m x _ (simInterrupts_idle pin m x hx hoff)]
  simp only [mainLoopBody_eq, SimInv, hp, hr, hoff, hcur, hx]
  simp [hc]

/-- Bouncing on an armed sampler: while the running block of equal samples
stays short and no block of eleven follows, nothing is dispatched. -/
theorem simulate_armed_bounce (pin : Nat) :
    ∀ (B : List GPIO_PinState) (m : Sim), SimInv m → m.st.tim6Running = true →
      headRun m.line B + m.st.debounceCounter < 10 → hasRun 11 B = false →
      SimInv (simulate pin m B) ∧ (simulate pin m B).st.tim6Running = true ∧
        (simulate pin m B).log = m.log := by
  intro B
  induction B with
  | nil => intro m hinv harm _ _; exact ⟨hinv, harm, rfl⟩
  | cons x xs ih =>
    intro m hinv harm hhead hrun
    simp only [hasRun, Bool.or_eq_false_iff, decide_eq_false_iff_not, Nat.not_le] at hrun
    simp only [simulate]
    by_cases hx : x = m.line
    · have hh : headRun x xs + 1 + m.st.debounceCounter < 10 := by
        simpa [headRun, hx] using hhead
      obtain ⟨hinv', hline, harm', hcnt, hlog⟩ :=
        simStep_count pin m x hinv hx harm (by omega)
      obtain ⟨h1, h2, h3⟩ := ih (simStep pin m x) hinv' harm'
        (by rw [hline, hcnt]; omega) hrun.2
      exact ⟨h1, h2, h3.trans hlog⟩
    · obtain ⟨hinv', hline, harm', hcnt, hlog⟩ := simStep_transition pin m x hinv hx
      obtain ⟨h1, h2, h3⟩ := ih (simStep pin m x) hinv' harm'
        (by rw [hline, hcnt]; omega) hrun.2
      exact ⟨h1, h2, h3.trans hlog⟩

/-- Bouncing that starts on an idle sampler: nothing is dispatched, and the
sampler ends armed unless the line never left its level. -/
theorem simulate_idle_bounce (pin : Nat) :
    ∀ (B : List GPIO_PinState) (m : Sim), SimInv m → m.st.tim6Running = false →
      hasRun 10 B = false →
      SimInv (simulate pin m B) ∧ (simulate pin m B).log = m.log ∧
        (((simulate pin m B).st.tim6Running = false ∧ (simulate pin m B).line = m.line) ∨
          (simulate pin m B).st.tim6Running = true) := by
  intro B
  induction B with
  | nil => intro m hinv hoff _; exact ⟨hinv, rfl, Or.inl ⟨hoff, rfl⟩⟩
  | cons x xs ih =>
    intro m hinv hoff hrun
    have hrun' := hrun
    simp only [hasRun, Bool.or_eq_false_iff, decide_eq_false_iff_not, Nat.not_le] at hrun
    simp only [simulate]
    by_cases hx : x = m.line
    · obtain ⟨hinv', hline, hoff', hlog⟩ := simStep_idle pin m x hinv hx hoff
      obtain ⟨h1, h2, h3⟩ := ih (simStep pin m x) hinv' hoff' hrun.2
      refine ⟨h1, h2.trans hlog, ?_⟩
      rcases h3 with h3 | h3
      · exact Or.inl ⟨h3.1, by rw [h3.2, hline, hx]⟩
      · exact Or.inr h3
    · obtain ⟨hinv', hline, harm', hcnt, hlog⟩ := simStep_transition pin m x hinv hx
      obtain ⟨h1, h2, h3⟩ := simulate_armed_bounce pin xs (simStep pin m x) hinv' harm'
        (by rw [hline, hcnt]; omega) (hasRun_succ_false 10 xs hrun.2)
      exact ⟨h1, h3.trans hlog, Or.inr h2⟩

/-- A steady line on an idle sampler: nothing happens. -/
theorem simulate_idle_block (pin : Nat) (v : GPIO_PinState) :
    ∀ (n : Nat) (m : Sim), SimInv m → m.st.tim6Running = false → m.line = v →
      SimInv (simulate pin m (List.replicate n v)) ∧
        (simulate pin m (List.replicate n v)).st.tim6Running = false ∧
        (simulate pin m (List.replicate n v)).line = v ∧
        (simulate pin m (List.replicate n v)).log = m.log := by
  intro n
  induction n with
  | zero => intro m hinv hoff hline; exact ⟨hinv, hoff, hline, rfl⟩
  | succ n ih =>
    intro m hinv hoff hline
    simp only [List.replicate_succ, simulate]
    obtain ⟨hinv', hline', hoff', hlog⟩ := simStep_idle pin m v hinv hline.symm hoff
    obtain ⟨h1, h2, h3, h4⟩ := ih (simStep pin m v) hinv' hoff' hline'
    exact ⟨h1, h2, h3, h4.trans hlog⟩

/-- A steady line on an armed sampler that already holds its level: the
debounce completes once, as soon as the count reaches 10. -/
theorem simulate_armed_block (pin : Nat) (v : GPIO_PinState) :
    ∀ (n : Nat) (m : Sim), SimInv m → m.st.tim6Running = true → m.line = v →
      10 ≤ m.st.debounceCounter + n →
      SimInv (simulate pin m (List.replicate n v)) ∧
        (simulate pin m (List.replicate n v)).st.tim6Running = false ∧
        (simulate pin m (List.replicate n v)).line = v ∧
        (simulate pin m (List.replicate n v)).log = m.log ++ [eventOf v] := by
  intro n
  induction n with
  | zero =>
    intro m hinv _ _ hn
    have := hinv.2.2.2
    omega
  | succ n ih =>
    intro m hinv harm hline hn
    simp only [List.replicate_succ, simulate]
    by_cases hdone : 10 ≤ m.st.debounceCounter + 1
    · obtain ⟨hinv', hline', hoff', hlog⟩ :=
        simStep_complete pin m v hinv hline.symm harm hdone
      obtain ⟨h1, h2, h3, h4⟩ := simulate_idle_block pin v n (simStep pin m v) hinv' hoff' hline'
      exact ⟨h1, h2, h3, h4.trans hlog⟩
    · obtain ⟨hinv', hline', harm', hcnt, hlog⟩ :=
        simStep_count pin m v hinv hline.symm harm (by omega)
      obtain ⟨h1, h2, h3, h4⟩ := ih (simStep pin m v) hinv' harm' hline'
        (by rw [hcnt]; omega)
      exact ⟨h1, h2, h3, by rw [h4, hlog]⟩

/-- A stable segment of at least 11 samples at level `v`, entered with the
sampler armed or with the line at the other level, dispatches exactly one
event and leaves the sampler idle. -/
theorem simulate_block (pin : Nat) (v : GPIO_PinState) (n : Nat) (m : Sim)
    (hinv : SimInv m) (hstart : m.st.tim6Running = true ∨ m.line ≠ v) (hn : 11 ≤ n) :
    SimInv (simulate pin m (List.replicate n v)) ∧
      (simulate pin m (List.replicate n v)).st.tim6Running = false ∧
      (simulate pin m (List.replicate n v)).line = v ∧
      (simulate pin m (List.replicate n v)).log = m.log ++ [eventOf v] := by
  by_cases hline : m.line = v
  · rcases hstart with harm | hne
    · exact simulate_armed_block pin v n m hinv harm hline (by omega)
    · exact absurd hline hne
  · obtain ⟨k, rfl⟩ : ∃ k, n = k + 1 := ⟨n - 1, by omega⟩
    simp only [List.replicate_succ, simulate]
    obtain ⟨hinv', hline', harm', hcnt, hlog⟩ :=
      simStep_transition pin m v hinv (fun h => hline h.symm)
    obtain ⟨h1, h2, h3, h4⟩ := simulate_armed_block pin v k (simStep pin m v) hinv' harm' hline'
      (by rw [hcnt]; omega)
    exact ⟨h1, h2, h3, by rw [h4, hlog]⟩

/-- C4, amended: from startup with the line idle at 1, for every raw trace
`B1 ++ 0^k ++ B2 ++ 1^m` with `k ≥ 11` and `m ≥ 11` (one sample per
millisecond) whose bouncing segments `B1`, `B2` contain no run of 10 equal
samples, with the edge handler entered at every level transition, the sampler
tick consuming one sample per millisecond while armed and the foreground
running after the interrupts of each millisecond, the dispatched events are
exactly one pressed followed by exactly one released. -/
theorem one_event_per_actuation (BUTTON_USER_Pin : Nat) (B1 B2 : List GPIO_PinState)
    (k m : Nat) (hk : 11 ≤ k) (hm : 11 ≤ m)
    (hB1 : hasRun 10 B1 = false) (hB2 : hasRun 10 B2 = false) :
    (simulate BUTTON_USER_Pin (simInit GPIO_PinState.GPIO_PIN_SET)
      (B1 ++ List.replicate k GPIO_PinState.GPIO_PIN_RESET ++ B2 ++
        List.replicate m GPIO_PinState.GPIO_PIN_SET)).log
      = [ButtonEvent.pressed, ButtonEvent.released] := by
  have h0 : SimInv (simInit GPIO_PinState.GPIO_PIN_SET) :=
    ⟨rfl, rfl, rfl, Nat.zero_lt_succ 9⟩
  obtain ⟨i1, l1, e1⟩ := simulate_idle_bounce BUTTON_USER_Pin B1 _ h0 rfl hB1
  have hs1 : (simulate BUTTON_USER_Pin (simInit GPIO_PinState.GPIO_PIN_SET) B1).st.tim6Running = true ∨
      (simulate BUTTON_USER_Pin (simInit GPIO_PinState.GPIO_PIN_SET) B1).line
        ≠ GPIO_PinState.GPIO_PIN_RESET := by
    rcases e1 with e1 | e1
    · right; rw [e1.2]; decide
    · left; exact e1
  obtain ⟨i2, o2, n2, l2⟩ := simulate_block BUTTON_USER_Pin GPIO_PinState.GPIO_PIN_RESET k _ i1 hs1 hk
  obtain ⟨i3, l3, e3⟩ := simulate_idle_bounce BUTTON_USER_Pin B2 _ i2 o2 hB2
  have hs3 : (simulate BUTTON_USER_Pin (simulate BUTTON_USER_Pin
        (simulate BUTTON_USER_Pin (simInit GPIO_PinState.GPIO_PIN_SET) B1)
        (List.replicate k GPIO_PinState.GPIO_PIN_RESET)) B2).st.tim6Running = true ∨
      (simulate BUTTON_USER_Pin (simulate BUTTON_USER_Pin
        (simulate BUTTON_USER_Pin (simInit GPIO_PinState.GPIO_PIN_SET) B1)
        (List.replicate k GPIO_PinState.GPIO_PIN_RESET)) B2).line
        ≠ GPIO_PinState.GPIO_PIN_SET := by
    rcases e3 with e3 | e3
    · right; rw [e3.2, n2]; decide
    · left; exact e3
  obtain ⟨_, _, _, l4⟩ := simulate_block BUTTON_USER_Pin GPIO_PinState.GPIO_PIN_SET m _ i3 hs3 hm
  rw [simulate_append, simulate_append, simulate_append, l4, l3, l2, l1]
  rfl

/-- Witness for the amended C4: the bouncy press of scenario S2 followed by a
bouncy release. -/
theorem one_event_per_actuation_witness :
    hasRun 10 [GPIO_PinState.GPIO_PIN_RESET, GPIO_PinState.GPIO_PIN_SET,
      GPIO_PinState.GPIO_PIN_RESET, GPIO_PinState.GPIO_PIN_SET, GPIO_PinState.GPIO_PIN_RESET,
      GPIO_PinState.GPIO_PIN_RESET, GPIO_PinState.GPIO_PIN_SET] = false ∧
    hasRun 10 [GPIO_PinState.GPIO_PIN_SET, GPIO_PinState.GPIO_PIN_RESET,
      GPIO_PinState.GPIO_PIN_SET] = false ∧
    (simulate 64 (simInit GPIO_PinState.GPIO_PIN_SET)
      ([GPIO_PinState.GPIO_PIN_RESET, GPIO_PinState.GPIO_PIN_SET,
          GPIO_PinState.GPIO_PIN_RESET, GPIO_PinState.GPIO_PIN_SET, GPIO_PinState.GPIO_PIN_RESET,
          GPIO_PinState.GPIO_PIN_RESET, GPIO_PinState.GPIO_PIN_SET] ++
        List.replicate 12 GPIO_PinState.GPIO_PIN_RESET ++
        [GPIO_PinState.GPIO_PIN_SET, GPIO_PinState.GPIO_PIN_RESET, GPIO_PinState.GPIO_PIN_SET] ++
        List.replicate 11 GPIO_PinState.GPIO_PIN_SET)).log
      = [ButtonEvent.pressed, ButtonEvent.released] :=
  ⟨by decide, by decide,
    one_event_per_actuation 64 _ _ 12 11 (by decide) (by decide) (by decide) (by decide)⟩

/-! ### Counter reset -/

/-- A sample that differs from the held reading leaves the counter at 0. -/
theorem onSampleTick_mismatch (s : State) (r : GPIO_PinState)
    (h : r.toNat ≠ s.currentButton) :
    onSampleTick r s =
      { s with
        previousButton := s.currentButton
        currentButton := r.toNat
        debounceCounter := 0 } := by
  have hcount : sampleCount s r = 0 := by simp only [sampleCount, h, if_false]
  rw [onSampleTick_of_lt s r (by rw [hcount]; exact Nat.zero_lt_succ 9), hcount]

theorem hwStep_idle_counter (pin : Nat) (s : State) (e : Event)
    (hinv : s.tim6Running = false → s.debounceCounter = 0) :
    (hwStep pin s e).tim6Running = false → (hwStep pin s e).debounceCounter = 0 := by
  cases e with
  | exti p =>
    simp only [hwStep, step]
    rw [HAL_GPIO_EXTI_Callback_eq]
    by_cases hp : p = pin
    · rw [if_pos hp]
      intro hcontra
      exact absurd hcontra (by simp)
    · rw [if_neg hp]
      exact hinv
  | timElapsed t r =>
    cases t with
    | htim6 =>
      simp only [hwStep, timerEnabled]
      by_cases harm : s.tim6Running = true
      · rw [if_pos harm]
        have ht : HAL_TIM_PeriodElapsedCallback TimHandle.htim6 r s = onSampleTick r s := rfl
        rw [ht]
        by_cases hdone : 10 ≤ sampleCount s r
        · rw [onSampleTick_of_ge s r hdone]
          intro _
          rfl
        · rw [onSampleTick_of_lt s r (Nat.not_le.mp hdone)]
          intro hcontra
          exact absurd (hcontra.symm.trans harm) (by simp)
      · rw [if_neg harm]
        exact hinv
    | htim7 =>
      simp only [hwStep, timerEnabled]
      split_ifs
      · exact hinv
      · exact hinv
    | other =>
      simp only [hwStep, timerEnabled, Bool.false_eq_true, if_false]
      exact hinv
  | foreground =>
    simp only [hwStep, step]
    rw [mainLoopBody_eq]
    exact hinv

theorem hwRun_idle_counter (pin : Nat) :
    ∀ (es : List Event) (s : State), (s.tim6Running = false → s.debounceCounter = 0) →
      (hwRun pin s es).tim6Running = false → (hwRun pin s es).debounceCounter = 0 := by
  intro es
  induction es with
  | nil => intro s hinv; exact hinv
  | cons e es ih => intro s hinv; exact ih (hwStep pin s e) (hwStep_idle_counter pin s e hinv)

/-- C11: in every state reached from startup by edge callbacks, sampler ticks
(only while armed), blink ticks and foreground passes, a disarmed sampler has
`debounceCounter = 0`; every sampler tick whose sample differs from the held
`currentButton` leaves `debounceCounter = 0`.  Hence an edge that arms the
idle sampler starts the debounce cycle with the counter at zero. -/
theorem counter_reset (BUTTON_USER_Pin : Nat) (r0 : GPIO_PinState) (es : List Event)
    (s : State) (r : GPIO_PinState) :
    ((hwRun BUTTON_USER_Pin (mainInit r0) es).tim6Running = false →
      (hwRun BUTTON_USER_Pin (mainInit r0) es).debounceCounter = 0) ∧
    (r.toNat ≠ s.currentButton → (onSampleTick r s).debounceCounter = 0) ∧
    ((hwRun BUTTON_USER_Pin (mainInit r0) es).tim6Running = false →
      (onButtonEdge BUTTON_USER_Pin (hwRun BUTTON_USER_Pin (mainInit r0) es)).tim6Running = true ∧
      (onButtonEdge BUTTON_USER_Pin (hwRun BUTTON_USER_Pin (mainInit r0) es)).debounceCounter = 0) := by
  have h1 := hwRun_idle_counter BUTTON_USER_Pin es (mainInit r0) (fun _ => rfl)
  refine ⟨h1, ?_, ?_⟩
  · intro h
    rw [onSampleTick_mismatch s r h]
  · intro hoff
    rw [onButtonEdge, HAL_GPIO_EXTI_Callback_eq, if_pos rfl]
    exact ⟨rfl, h1 hoff⟩

/-- Witness for C11: after a press debounced from startup the sampler is idle
with the counter at 0, and a bouncing sample resets the counter. -/
theorem counter_reset_witness :
    (hwRun 64 (mainInit GPIO_PinState.GPIO_PIN_SET)
      ([Event.exti 64] ++
        List.replicate 11 (Event.timElapsed TimHandle.htim6 GPIO_PinState.GPIO_PIN_RESET))).tim6Running
      = false ∧
    (hwRun 64 (mainInit GPIO_PinState.GPIO_PIN_SET)
      ([Event.exti 64] ++
        List.replicate 11 (Event.timElapsed TimHandle.htim6 GPIO_PinState.GPIO_PIN_RESET))).debounceCounter
      = 0 ∧
    (onSampleTick GPIO_PinState.GPIO_PIN_SET
      { mainInit GPIO_PinState.GPIO_PIN_RESET with debounceCounter := 7 }).debounceCounter = 0 :=
  ⟨by decide,
    (counter_reset 64 GPIO_PinState.GPIO_PIN_SET _ (mainInit GPIO_PinState.GPIO_PIN_SET)
      GPIO_PinState.GPIO_PIN_SET).1 (by decide),
    (counter_reset 64 GPIO_PinState.GPIO_PIN_SET []
      { mainInit GPIO_PinState.GPIO_PIN_RESET with debounceCounter := 7 }
      GPIO_PinState.GPIO_PIN_SET).2.1 (by decide)⟩

/-! ### Scenarios S2 and S3 -/

/-- The edge callback on an idle sampler. -/
theorem onButtonEdge_eq (pin : Nat) (s : State) :
    onButtonEdge pin s = { s with OUT_TEST := true, tim6Running := true } := by
  rw [onButtonEdge, HAL_GPIO_EXTI_Callback_eq, if_pos rfl]

/-- C13, as stated, fails: with `currentButton = 0` held from the press, ten
samples of 1 after the edge leave the released flag clear and the sampler
armed (the first sample only restarts the count). -/
theorem release_after_press_counterexample :
    ¬ ∀ (BUTTON_USER_Pin : Nat) (s : State),
        s.LED_BLUE = true → s.tim6Running = false → s.debounceCounter = 0 →
        s.debouncedButtonPressed = 0 → s.debouncedButtonReleased = 0 →
        s.currentButton = 0 →
        (feed (onButtonEdge BUTTON_USER_Pin s)
          (List.replicate 10 GPIO_PinState.GPIO_PIN_SET)).debouncedButtonReleased = 1 ∧
        (feed (onButtonEdge BUTTON_USER_Pin s)
          (List.replicate 10 GPIO_PinState.GPIO_PIN_SET)).debouncedButtonPressed = 0 ∧
        (feed (onButtonEdge BUTTON_USER_Pin s)
          (List.replicate 10 GPIO_PinState.GPIO_PIN_SET)).tim6Running = false := by
  intro h
  have h1 := h 64 { mainInit GPIO_PinState.GPIO_PIN_RESET with LED_BLUE := true }
    rfl rfl rfl rfl rfl rfl
  exact absurd h1.1 (by decide)

/-- C13, amended: for every state with blue = 1, sampler idle, counter 0, both
flags clear and `currentButton = 0`, after one edge and 11 consecutive samples
of 1 the released flag is set, the pressed flag is still clear and the sampler
is disarmed (after only 10 of them it is still armed with both flags clear);
the following foreground pass clears the released flag and leaves blue = 1. -/
theorem release_after_press (BUTTON_USER_Pin : Nat) (s : State)
    (hblue : s.LED_BLUE = true) (_hidle : s.tim6Running = false)
    (_hc : s.debounceCounter = 0) (hp : s.debouncedButtonPressed = 0)
    (hr : s.debouncedButtonReleased = 0) (hcur : s.currentButton = 0) :
    ((feed (onButtonEdge BUTTON_USER_Pin s)
        (List.replicate 10 GPIO_PinState.GPIO_PIN_SET)).tim6Running = true ∧
      (feed (onButtonEdge BUTTON_USER_Pin s)
        (List.replicate 10 GPIO_PinState.GPIO_PIN_SET)).debouncedButtonPressed = 0 ∧
      (feed (onButtonEdge BUTTON_USER_Pin s)
        (List.replicate 10 GPIO_PinState.GPIO_PIN_SET)).debouncedButtonReleased = 0) ∧
    ((feed (onButtonEdge BUTTON_USER_Pin s)
        (List.replicate 11 GPIO_PinState.GPIO_PIN_SET)).debouncedButtonReleased = 1 ∧
      (feed (onButtonEdge BUTTON_USER_Pin s)
        (List.replicate 11 GPIO_PinState.GPIO_PIN_SET)).debouncedButtonPressed = 0 ∧
      (feed (onButtonEdge BUTTON_USER_Pin s)
        (List.replicate 11 GPIO_PinState.GPIO_PIN_SET)).tim6Running = false) ∧
    ((mainLoopBody (feed (onButtonEdge BUTTON_USER_Pin s)
        (List.replicate 11 GPIO_PinState.GPIO_PIN_SET))).debouncedButtonReleased = 0 ∧
      (mainLoopBody (feed (onButtonEdge BUTTON_USER_Pin s)
        (List.replicate 11 GPIO_PinState.GPIO_PIN_SET))).LED_BLUE = true) := by
  have harm : (onButtonEdge BUTTON_USER_Pin s).tim6Running = true := by
    rw [onButtonEdge_eq]
  have hne : GPIO_PinState.GPIO_PIN_SET.toNat ≠ (onButtonEdge BUTTON_USER_Pin s).currentButton := by
    rw [onButtonEdge_eq]
    show (1 : Nat) ≠ s.currentButton
    rw [hcur]
    exact Nat.one_ne_zero
  have htick := onSampleTick_mismatch (onButtonEdge BUTTON_USER_Pin s)
    GPIO_PinState.GPIO_PIN_SET hne
  have hstep : ∀ n, feed (onButtonEdge BUTTON_USER_Pin s)
      (List.replicate (n + 1) GPIO_PinState.GPIO_PIN_SET) =
      feed (onSampleTick GPIO_PinState.GPIO_PIN_SET (onButtonEdge BUTTON_USER_Pin s))
        (List.replicate n GPIO_PinState.GPIO_PIN_SET) := by
    intro n
    simp only [List.replicate_succ, feed, harm, if_true]
  have harm2 : (onSampleTick GPIO_PinState.GPIO_PIN_SET
      (onButtonEdge BUTTON_USER_Pin s)).tim6Running = true := by
    rw [htick]; exact harm
  have hc2 : (onSampleTick GPIO_PinState.GPIO_PIN_SET
      (onButtonEdge BUTTON_USER_Pin s)).debounceCounter = 0 := by
    rw [htick]
  have hcur2 : (onSampleTick GPIO_PinState.GPIO_PIN_SET
      (onButtonEdge BUTTON_USER_Pin s)).currentButton = GPIO_PinState.GPIO_PIN_SET.toNat := by
    rw [htick]
  have hp2 : (onSampleTick GPIO_PinState.GPIO_PIN_SET
      (onButtonEdge BUTTON_USER_Pin s)).debouncedButtonPressed = 0 := by
    rw [htick, onButtonEdge_eq]; exact hp
  have hr2 : (onSampleTick GPIO_PinState.GPIO_PIN_SET
      (onButtonEdge BUTTON_USER_Pin s)).debouncedButtonReleased = 0 := by
    rw [htick, onButtonEdge_eq]; exact hr
  have hblue2 : (onSampleTick GPIO_PinState.GPIO_PIN_SET
      (onButtonEdge BUTTON_USER_Pin s)).LED_BLUE = true := by
    rw [htick, onButtonEdge_eq]; exact hblue
  obtain ⟨p, c, _, hfeed9⟩ := feed_no_completion (List.replicate 9 GPIO_PinState.GPIO_PIN_SET)
    _ harm2 (by rw [hc2]; exact Nat.zero_lt_succ 9)
    (by intro v _; rw [hc2]; cases v <;> decide) (by decide)
  have hdone := feed_block GPIO_PinState.GPIO_PIN_SET 10 _ harm2 hcur2
    (by rw [hc2]; exact Nat.zero_lt_succ 9) (by rw [hc2])
  refine ⟨?_, ?_, ?_⟩
  · rw [hstep 9, hfeed9]
    exact ⟨harm2, hp2, hr2⟩
  · rw [hstep 10, hdone]
    exact ⟨rfl, hp2, rfl⟩
  · rw [hstep 10, hdone, mainLoopBody_eq]
    refine ⟨rfl, ?_⟩
    show (if (onSampleTick GPIO_PinState.GPIO_PIN_SET
      (onButtonEdge BUTTON_USER_Pin s)).debouncedButtonPressed ≠ 0 then _ else _) = true
    rw [hp2]
    exact hblue2

/-- Witness for the amended C13: the state left by a debounced and dispatched
press. -/
theorem release_after_press_witness :
    (feed (onButtonEdge 64 { mainInit GPIO_PinState.GPIO_PIN_RESET with LED_BLUE := true })
        (List.replicate 11 GPIO_PinState.GPIO_PIN_SET)).debouncedButtonReleased = 1 ∧
    (mainLoopBody (feed
        (onButtonEdge 64 { mainInit GPIO_PinState.GPIO_PIN_RESET with LED_BLUE := true })
        (List.replicate 11 GPIO_PinState.GPIO_PIN_SET))).LED_BLUE = true :=
  ⟨(release_after_press 64 { mainInit GPIO_PinState.GPIO_PIN_RESET with LED_BLUE := true }
      rfl rfl rfl rfl rfl rfl).2.1.1,
    (release_after_press 64 { mainInit GPIO_PinState.GPIO_PIN_RESET with LED_BLUE := true }
      rfl rfl rfl rfl rfl rfl).2.2.2⟩

/-- A sample that differs from the reading held after `pre` leaves the counter
at 0, provided the debounce has not completed during `pre`. -/
theorem feed_snoc_mismatch (s : State) (pre : List GPIO_PinState) (r : GPIO_PinState)
    (harm : s.tim6Running = true) (hc : s.debounceCounter < 10)
    (hhead : ∀ v : GPIO_PinState, v.toNat = s.currentButton →
      headRun v pre + s.debounceCounter < 10)
    (hrun : hasRun 11 pre = false) (hne : r.toNat ≠ lastReading s.currentButton pre) :
    (feed s (pre ++ [r])).debounceCounter = 0 := by
  obtain ⟨p, c, _, hfeed⟩ := feed_no_completion pre s harm hc hhead hrun
  have harm' : (feed s pre).tim6Running = true := by rw [hfeed]; exact harm
  have hne' : r.toNat ≠ (feed s pre).currentButton := by rw [hfeed]; exact hne
  rw [feed_append]
  simp only [feed, harm', if_true]
  rw [onSampleTick_mismatch _ r hne']

/-- C12, as stated, fails: in scenario S2 the sampler has already disarmed
after sample 18, one sample before the end of the stream. -/
theorem bouncy_press_counterexample :
    ¬ ∀ (BUTTON_USER_Pin : Nat) (s : State),
        s.tim6Running = false → s.debounceCounter = 0 →
        s.debouncedButtonPressed = 0 → s.debouncedButtonReleased = 0 →
        (∀ k, k < 19 →
          (feed (onButtonEdge BUTTON_USER_Pin s) (bouncyPress.take k)).tim6Running = true) ∧
        (feed (onButtonEdge BUTTON_USER_Pin s) bouncyPress).tim6Running = false ∧
        (feed (onButtonEdge BUTTON_USER_Pin s) bouncyPress).debouncedButtonPressed = 1 ∧
        (feed (onButtonEdge BUTTON_USER_Pin s) bouncyPress).debouncedButtonReleased = 0 := by
  intro h
  have h1 := (h 64 (mainInit GPIO_PinState.GPIO_PIN_SET) rfl rfl rfl rfl).1 18 (by decide)
  exact absurd h1 (by decide)

/-- C12, amended: from an idle sampler with counter 0 and both flags clear,
after one edge and the stream of S2 fed one sample per tick while armed,
exactly one pressed event and no released event is emitted; the sampler is
still armed with both flags clear after each of the first 17 samples and
disarms at sample 18 (the eleventh of the final zeroes), so that sample 19 is
dropped; and the counter is 0 after every tick whose sample differs from the
preceding one. -/
theorem bouncy_press (BUTTON_USER_Pin : Nat) (s : State)
    (_hidle : s.tim6Running = false) (hc : s.debounceCounter = 0)
    (hp : s.debouncedButtonPressed = 0) (hr : s.debouncedButtonReleased = 0) :
    (∀ k, k ≤ 17 →
      (feed (onButtonEdge BUTTON_USER_Pin s) (bouncyPress.take k)).tim6Running = true ∧
      (feed (onButtonEdge BUTTON_USER_Pin s) (bouncyPress.take k)).debouncedButtonPressed = 0 ∧
      (feed (onButtonEdge BUTTON_USER_Pin s) (bouncyPress.take k)).debouncedButtonReleased = 0) ∧
    ((feed (onButtonEdge BUTTON_USER_Pin s) (bouncyPress.take 18)).tim6Running = false ∧
      (feed (onButtonEdge BUTTON_USER_Pin s) (bouncyPress.take 18)).debouncedButtonPressed = 1 ∧
      (feed (onButtonEdge BUTTON_USER_Pin s) (bouncyPress.take 18)).debouncedButtonReleased = 0) ∧
    feed (onButtonEdge BUTTON_USER_Pin s) bouncyPress =
      feed (onButtonEdge BUTTON_USER_Pin s) (bouncyPress.take 18) ∧
    (∀ k, k < 18 → bouncyPress.get? (k + 1) ≠ bouncyPress.get? k →
      (feed (onButtonEdge BUTTON_USER_Pin s) (bouncyPress.take (k + 2))).debounceCounter = 0) := by
  have harm : (onButtonEdge BUTTON_USER_Pin s).tim6Running = true := by
    rw [onButtonEdge_eq]
  have hc1 : (onButtonEdge BUTTON_USER_Pin s).debounceCounter = 0 := by
    rw [onButtonEdge_eq]; exact hc
  have hp1 : (onButtonEdge BUTTON_USER_Pin s).debouncedButtonPressed = 0 := by
    rw [onButtonEdge_eq]; exact hp
  have hr1 : (onButtonEdge BUTTON_USER_Pin s).debouncedButtonReleased = 0 := by
    rw [onButtonEdge_eq]; exact hr
  have hlt : (onButtonEdge BUTTON_USER_Pin s).debounceCounter < 10 := by
    rw [hc1]; exact Nat.zero_lt_succ 9
  have hquiet : ∀ l : List GPIO_PinState, hasRun 11 l = false →
      (∀ v : GPIO_PinState, headRun v l < 10) →
      ∃ p c, c < 10 ∧ feed (onButtonEdge BUTTON_USER_Pin s) l =
        { onButtonEdge BUTTON_USER_Pin s with
          previousButton := p
          currentButton := lastReading (onButtonEdge BUTTON_USER_Pin s).currentButton l
          debounceCounter := c } := by
    intro l hl hh
    exact feed_no_completion l _ harm hlt (by intro v _; rw [hc1]; exact hh v) hl
  have h18 : feed (onButtonEdge BUTTON_USER_Pin s) (bouncyPress.take 18) =
      feed (feed (onButtonEdge BUTTON_USER_Pin s) (bouncyPress.take 8))
        (List.replicate 10 GPIO_PinState.GPIO_PIN_RESET) := by
    rw [← feed_append]
    rfl
  obtain ⟨p8, c8, hc8, hfeed8⟩ := hquiet (bouncyPress.take 8) (by decide)
    (by intro v; cases v <;> decide)
  have hblock := feed_block GPIO_PinState.GPIO_PIN_RESET 10
    (feed (onButtonEdge BUTTON_USER_Pin s) (bouncyPress.take 8))
    (by rw [hfeed8]; exact harm) (by rw [hfeed8]; rfl) (by rw [hfeed8]; exact hc8)
    (by rw [hfeed8]; show 10 ≤ c8 + 10; omega)
  have hdone : (feed (onButtonEdge BUTTON_USER_Pin s) (bouncyPress.take 18)).tim6Running = false ∧
      (feed (onButtonEdge BUTTON_USER_Pin s) (bouncyPress.take 18)).debouncedButtonPressed = 1 ∧
      (feed (onButtonEdge BUTTON_USER_Pin s) (bouncyPress.take 18)).debouncedButtonReleased = 0 := by
    rw [h18, hblock, hfeed8]
    exact ⟨rfl, rfl, hr1⟩
  refine ⟨?_, hdone, ?_, ?_⟩
  · intro k hk
    have htake : bouncyPress.take k = (bouncyPress.take 17).take k := by
      rw [List.take_take, Nat.min_eq_left hk]
    obtain ⟨p, c, _, hfeed⟩ := hquiet (bouncyPress.take k)
      (by rw [htake]; exact hasRun_take_false 11 _ k (by decide))
      (by
        intro v
        rw [htake]
        have h1 := headRun_take_le v (bouncyPress.take 17) k
        have h2 : headRun v (bouncyPress.take 17) < 10 := by cases v <;> decide
        omega)
    rw [hfeed]
    exact ⟨harm, hp1, hr1⟩
  · have hall : bouncyPress = bouncyPress.take 18 ++ [GPIO_PinState.GPIO_PIN_RESET] := by decide
    conv_lhs => rw [hall]
    rw [feed_append, feed_disarmed _ _ hdone.1]
  · intro k hk hne
    have hmis : ∀ (pre : List GPIO_PinState) (r : GPIO_PinState), hasRun 11 pre = false →
        (∀ v : GPIO_PinState, headRun v pre < 10) → pre ≠ [] →
        r.toNat ≠ lastReading 0 pre →
        (feed (onButtonEdge BUTTON_USER_Pin s) (pre ++ [r])).debounceCounter = 0 := by
      intro pre r hl hh hpre hr'
      cases pre with
      | nil => exact absurd rfl hpre
      | cons x xs =>
        exact feed_snoc_mismatch _ (x :: xs) r harm hlt
          (by intro v _; rw [hc1]; exact hh v) hl hr'
    interval_cases k
    · exact hmis [GPIO_PinState.GPIO_PIN_RESET] GPIO_PinState.GPIO_PIN_SET (by decide)
        (by intro v; cases v <;> decide) (by decide) (by decide)
    · exact hmis (bouncyPress.take 2) GPIO_PinState.GPIO_PIN_RESET (by decide)
        (by intro v; cases v <;> decide) (by decide) (by decide)
    · exact hmis (bouncyPress.take 3) GPIO_PinState.GPIO_PIN_SET (by decide)
        (by intro v; cases v <;> decide) (by decide) (by decide)
    · exact hmis (bouncyPress.take 4) GPIO_PinState.GPIO_PIN_RESET (by decide)
        (by intro v; cases v <;> decide) (by decide) (by decide)
    · exact absurd rfl hne
    · exact hmis (bouncyPress.take 6) GPIO_PinState.GPIO_PIN_SET (by decide)
        (by intro v; cases v <;> decide) (by decide) (by decide)
    · exact hmis (bouncyPress.take 7) GPIO_PinState.GPIO_PIN_RESET (by decide)
        (by intro v; cases v <;> decide) (by decide) (by decide)
    all_goals exact absurd rfl hne

/-- Witness for the amended C12: scenario S2 from startup with the line idle
at 1. -/
theorem bouncy_press_witness :
    (feed (onButtonEdge 64 (mainInit GPIO_PinState.GPIO_PIN_SET))
      (bouncyPress.take 18)).debouncedButtonPressed = 1 ∧
    feed (onButtonEdge 64 (mainInit GPIO_PinState.GPIO_PIN_SET)) bouncyPress =
      feed (onButtonEdge 64 (mainInit GPIO_PinState.GPIO_PIN_SET)) (bouncyPress.take 18) :=
  ⟨(bouncy_press 64 (mainInit GPIO_PinState.GPIO_PIN_SET) rfl rfl rfl rfl).2.1.2.1,
    (bouncy_press 64 (mainInit GPIO_PinState.GPIO_PIN_SET) rfl rfl rfl rfl).2.2.1⟩

/-! ### The blink ticker -/

/-- Normal form of the blink tick. -/
theorem onBlinkTick_eq (s : State) : onBlinkTick s = { s with toggleGreenLED := 1 } := rfl

/-- One blink tick followed by a foreground pass, with no button event
pending: the green output toggles and nothing else moves. -/
theorem blink_cycle_eq (s : State) (hp : s.debouncedButtonPressed = 0)
    (hr : s.debouncedButtonReleased = 0) :
    mainLoopBody (onBlinkTick s) = { s with toggleGreenLED := 0, LED_GREEN := !s.LED_GREEN } := by
  rw [onBlinkTick_eq, mainLoopBody_eq]
  obtain ⟨g, b, cur, prev, c, p, r, t6, t7, lb, lg, ot⟩ := s
  simp only at hp hr
  subst hp hr
  simp

theorem blinkCycles_eq :
    ∀ (n : Nat) (s : State), s.debouncedButtonPressed = 0 → s.debouncedButtonReleased = 0 →
      blinkCycles n s =
        { s with
          toggleGreenLED := if n = 0 then s.toggleGreenLED else 0
          LED_GREEN := if n % 2 = 1 then !s.LED_GREEN else s.LED_GREEN } := by
  intro n
  induction n with
  | zero => intro s _ _; rfl
  | succ n ih =>
    intro s hp hr
    have hcyc := blink_cycle_eq s hp hr
    simp only [blinkCycles]
    rw [ih _ (by rw [hcyc]; exact hp) (by rw [hcyc]; exact hr), hcyc]
    rcases Nat.mod_two_eq_zero_or_one n with h | h
    · have h' : (n + 1) % 2 = 1 := by omega
      simp [h, h']
    · have h' : (n + 1) % 2 = 0 := by omega
      simp [h, h']

/-- C15: the blink tick sets `toggleGreenLED` and changes nothing else; hence,
from every state with both button flags clear, `n` repetitions of (blink tick;
foreground pass) toggle the green output exactly `n` times, once per
repetition (eight repetitions return it to its initial level), and leave the
blue and test outputs, `currentButton`, `previousButton`, `debounceCounter`,
both button flags and the armed state of the sampler unchanged. -/
theorem blink_independence (s : State) (n : Nat)
    (hp : s.debouncedButtonPressed = 0) (hr : s.debouncedButtonReleased = 0) :
    onBlinkTick s =
      { toggleGreenLED := 1
        toggleBlueLED := s.toggleBlueLED
        currentButton := s.currentButton
        previousButton := s.previousButton
        debounceCounter := s.debounceCounter
        debouncedButtonPressed := s.debouncedButtonPressed
        debouncedButtonReleased := s.debouncedButtonReleased
        tim6Running := s.tim6Running
        tim7Running := s.tim7Running
        LED_BLUE := s.LED_BLUE
        LED_GREEN := s.LED_GREEN
        OUT_TEST := s.OUT_TEST } ∧
    blinkCycles n s =
      { toggleGreenLED := if n = 0 then s.toggleGreenLED else 0
        toggleBlueLED := s.toggleBlueLED
        currentButton := s.currentButton
        previousButton := s.previousButton
        debounceCounter := s.debounceCounter
        debouncedButtonPressed := s.debouncedButtonPressed
        debouncedButtonReleased := s.debouncedButtonReleased
        tim6Running := s.tim6Running
        tim7Running := s.tim7Running
        LED_BLUE := s.LED_BLUE
        LED_GREEN := if n % 2 = 1 then !s.LED_GREEN else s.LED_GREEN
        OUT_TEST := s.OUT_TEST } ∧
    (blinkCycles (n + 1) s).LED_GREEN = !(blinkCycles n s).LED_GREEN ∧
    (blinkCycles 8 s).LED_GREEN = s.LED_GREEN := by
  refine ⟨rfl, blinkCycles_eq n s hp hr, ?_, ?_⟩
  · rw [blinkCycles_eq (n + 1) s hp hr, blinkCycles_eq n s hp hr]
    rcases Nat.mod_two_eq_zero_or_one n with h | h
    · have h' : (n + 1) % 2 = 1 := by omega
      simp [h, h']
    · have h' : (n + 1) % 2 = 0 := by omega
      simp [h, h']
  · rw [blinkCycles_eq 8 s hp hr]
    rfl

/-- Witness for C15 (scenario S4): eight blink ticks from startup. -/
theorem blink_independence_witness :
    blinkCycles 8 (mainInit GPIO_PinState.GPIO_PIN_SET) = mainInit GPIO_PinState.GPIO_PIN_SET ∧
    (blinkCycles 7 (mainInit GPIO_PinState.GPIO_PIN_SET)).LED_GREEN = true :=
  ⟨(blink_independence (mainInit GPIO_PinState.GPIO_PIN_SET) 8 rfl rfl).2.1.trans (by decide),
    by decide⟩

/-! ### Timer periods -/

/-- C16: with the clock tree of `SystemClock_Config` (16 MHz HSI times 6
divided by 3, AHB and APB1 dividers 1) the timer input clock is 32 MHz; one
update of TIM6 (prescaler 16000-1, period 2-1) takes exactly 32000 timer
cycles, that is exactly 1 ms, and one update of TIM7 (prescaler 32000-1,
period 250-1) exactly 8000000 cycles, that is exactly 250 ms; two green
toggles therefore take 500 ms, a 2 Hz cycle. -/
theorem timer_periods :
    SYSCLK = 32000000 ∧ timerClock = 32000000 ∧
    updateCycles htim6Init * 1000 = timerClock * 1 ∧
    updatePeriodMicros htim6Init = 1000 ∧
    updateCycles htim7Init * 1000 = timerClock * 250 ∧
    updatePeriodMicros htim7Init = 250000 ∧
    2 * updatePeriodMicros htim7Init = 500000 ∧
    1000000 / (2 * updatePeriodMicros htim7Init) = 2 := by
  have h1 : SYSCLK = 32000000 := by
    norm_num [SYSCLK, HSI_VALUE, PLLMUL, PLLDIV]
  have h2 : timerClock = 32000000 := by
    simp only [timerClock, h1, AHBCLKDivider, APB1CLKDivider, if_true, Nat.div_one]
  have h6 : updateCycles htim6Init = 32000 := by
    norm_num [updateCycles, htim6Init]
  have h7 : updateCycles htim7Init = 8000000 := by
    norm_num [updateCycles, htim7Init]
  have p6 : updatePeriodMicros htim6Init = 1000 := by
    rw [updatePeriodMicros, h6, h2]
  have p7 : updatePeriodMicros htim7Init = 250000 := by
    rw [updatePeriodMicros, h7, h2]
  refine ⟨h1, h2, ?_, p6, ?_, p7, ?_, ?_⟩
  · rw [h6, h2]
  · rw [h7, h2]
  · rw [p7]
  · rw [p7]

/-! ### Coalesced events -/

/-- With the foreground stalled and no debounce completing, the button flags
and the blue output stay as they are. -/
theorem hwStep_quiet (pin : Nat) (s : State) (e : Event)
    (hq : quietBetween pin s [e] = true) :
    (hwStep pin s e).debouncedButtonPressed = s.debouncedButtonPressed ∧
    (hwStep pin s e).debouncedButtonReleased = s.debouncedButtonReleased ∧
    (hwStep pin s e).LED_BLUE = s.LED_BLUE := by
  cases e with
  | exti p =>
    simp only [hwStep, step]
    rw [HAL_GPIO_EXTI_Callback_eq]
    split_ifs <;> exact ⟨rfl, rfl, rfl⟩
  | timElapsed t r =>
    cases t with
    | htim6 =>
      simp only [hwStep, timerEnabled]
      by_cases harm : s.tim6Running = true
      · rw [if_pos harm]
        have ht : HAL_TIM_PeriodElapsedCallback TimHandle.htim6 r s = onSampleTick r s := rfl
        have hlt : sampleCount s r < 10 := by
          simpa [quietBetween, harm] using hq
        rw [ht, onSampleTick_of_lt s r hlt]
        exact ⟨rfl, rfl, rfl⟩
      · rw [if_neg harm]
        exact ⟨rfl, rfl, rfl⟩
    | htim7 =>
      have h : hwStep pin s (Event.timElapsed TimHandle.htim7 r) = s ∨
          hwStep pin s (Event.timElapsed TimHandle.htim7 r) = { s with toggleGreenLED := 1 } := by
        simp only [hwStep, timerEnabled]
        split_ifs
        · right; rfl
        · left; rfl
      rcases h with h | h <;> rw [h] <;> exact ⟨rfl, rfl, rfl⟩
    | other =>
      exact ⟨rfl, rfl, rfl⟩
  | foreground =>
    simp [quietBetween] at hq

theorem hwRun_quiet (pin : Nat) :
    ∀ (es : List Event) (s : State), quietBetween pin s es = true →
      (hwRun pin s es).debouncedButtonPressed = s.debouncedButtonPressed ∧
      (hwRun pin s es).debouncedButtonReleased = s.debouncedButtonReleased ∧
      (hwRun pin s es).LED_BLUE = s.LED_BLUE := by
  intro es
  induction es with
  | nil => intro s _; exact ⟨rfl, rfl, rfl⟩
  | cons e es ih =>
    intro s hq
    simp only [quietBetween, Bool.and_eq_true] at hq
    obtain ⟨h1, h2, h3⟩ := hwStep_quiet pin s e
      (by simp only [quietBetween, Bool.and_eq_true]; exact ⟨hq.1, trivial⟩)
    obtain ⟨k1, k2, k3⟩ := ih (hwStep pin s e) hq.2
    exact ⟨k1.trans h1, k2.trans h2, k3.trans h3⟩

/-- C14, as stated, fails for the released polarity when a pressed event is
still pending: a press is debounced with the foreground stalled, then two
releases are debounced with nothing completing in between; the flags after
the second release equal those after the first, but the next foreground pass
toggles the blue output. -/
theorem coalesced_event_counterexample :
    ¬ ∀ (BUTTON_USER_Pin : Nat) (s0 : State) (r : GPIO_PinState) (mid : List Event),
        10 ≤ sampleCount s0 r →
        quietBetween BUTTON_USER_Pin (onSampleTick r s0) mid = true →
        10 ≤ sampleCount (hwRun BUTTON_USER_Pin (onSampleTick r s0) mid) r →
        (mainLoopBody (onSampleTick r
            (hwRun BUTTON_USER_Pin (onSampleTick r s0) mid))).LED_BLUE =
          (if r = GPIO_PinState.GPIO_PIN_RESET
            then !(onSampleTick r (hwRun BUTTON_USER_Pin (onSampleTick r s0) mid)).LED_BLUE
            else (onSampleTick r (hwRun BUTTON_USER_Pin (onSampleTick r s0) mid)).LED_BLUE) := by
  intro h
  have h1 := h 64
    (hwRun 64 (mainInit GPIO_PinState.GPIO_PIN_SET)
      ([Event.exti 64] ++
        List.replicate 11 (Event.timElapsed TimHandle.htim6 GPIO_PinState.GPIO_PIN_RESET) ++
        [Event.exti 64] ++
        List.replicate 10 (Event.timElapsed TimHandle.htim6 GPIO_PinState.GPIO_PIN_SET)))
    GPIO_PinState.GPIO_PIN_SET
    ([Event.exti 64] ++
      List.replicate 9 (Event.timElapsed TimHandle.htim6 GPIO_PinState.GPIO_PIN_SET))
    (by decide) (by decide) (by decide)
  exact absurd h1 (by decide)

/-- C14, amended: two debounce completions of the same polarity `r`, from
`s0` and after a stretch `mid` in which the foreground is stalled and nothing
completes, where for the released polarity no pressed event is pending in
`s0`.  The event flags after the second completion equal those after the
first; the next foreground pass toggles the blue output exactly once if the
polarity is pressed and not at all if it is released, and clears both flags;
a further foreground pass with no new completion toggles nothing. -/
theorem coalesced_event (BUTTON_USER_Pin : Nat) (s0 : State) (r : GPIO_PinState)
    (mid mid2 : List Event)
    (hp : r = GPIO_PinState.GPIO_PIN_SET → s0.debouncedButtonPressed = 0)
    (h1 : 10 ≤ sampleCount s0 r)
    (hq : quietBetween BUTTON_USER_Pin (onSampleTick r s0) mid = true)
    (h2 : 10 ≤ sampleCount (hwRun BUTTON_USER_Pin (onSampleTick r s0) mid) r)
    (hq2 : quietBetween BUTTON_USER_Pin
      (mainLoopBody (onSampleTick r (hwRun BUTTON_USER_Pin (onSampleTick r s0) mid))) mid2 = true) :
    ((onSampleTick r (hwRun BUTTON_USER_Pin (onSampleTick r s0) mid)).debouncedButtonPressed =
        (onSampleTick r s0).debouncedButtonPressed ∧
      (onSampleTick r (hwRun BUTTON_USER_Pin (onSampleTick r s0) mid)).debouncedButtonReleased =
        (onSampleTick r s0).debouncedButtonReleased) ∧
    (onSampleTick r (hwRun BUTTON_USER_Pin (onSampleTick r s0) mid)).LED_BLUE = s0.LED_BLUE ∧
    (mainLoopBody (onSampleTick r
        (hwRun BUTTON_USER_Pin (onSampleTick r s0) mid))).LED_BLUE =
      (if r = GPIO_PinState.GPIO_PIN_RESET then !s0.LED_BLUE else s0.LED_BLUE) ∧
    ((mainLoopBody (onSampleTick r
        (hwRun BUTTON_USER_Pin (onSampleTick r s0) mid))).debouncedButtonPressed = 0 ∧
      (mainLoopBody (onSampleTick r
        (hwRun BUTTON_USER_Pin (onSampleTick r s0) mid))).debouncedButtonReleased = 0) ∧
    (mainLoopBody (hwRun BUTTON_USER_Pin
        (mainLoopBody (onSampleTick r (hwRun BUTTON_USER_Pin (onSampleTick r s0) mid)))
        mid2)).LED_BLUE =
      (mainLoopBody (onSampleTick r
        (hwRun BUTTON_USER_Pin (onSampleTick r s0) mid))).LED_BLUE := by
  obtain ⟨q1, q2, q3⟩ := hwRun_quiet BUTTON_USER_Pin mid _ hq
  have e1 := onSampleTick_of_ge s0 r h1
  have e3 := onSampleTick_of_ge _ r h2
  have f1 : (onSampleTick r s0).debouncedButtonPressed =
      if r.toNat = 0 then 1 else s0.debouncedButtonPressed := by rw [e1]
  have f2 : (onSampleTick r s0).debouncedButtonReleased =
      if r.toNat = 0 then s0.debouncedButtonReleased else 1 := by rw [e1]
  have f3 : (onSampleTick r s0).LED_BLUE = s0.LED_BLUE := by rw [e1]
  have g1 : (onSampleTick r (hwRun BUTTON_USER_Pin (onSampleTick r s0) mid)).debouncedButtonPressed =
      if r.toNat = 0 then 1 else s0.debouncedButtonPressed := by
    rw [e3]
    show (if r.toNat = 0 then 1
      else (hwRun BUTTON_USER_Pin (onSampleTick r s0) mid).debouncedButtonPressed) = _
    rw [q1, f1]
    split_ifs <;> rfl
  have g2 : (onSampleTick r (hwRun BUTTON_USER_Pin (onSampleTick r s0) mid)).debouncedButtonReleased =
      if r.toNat = 0 then s0.debouncedButtonReleased else 1 := by
    rw [e3]
    show (if r.toNat = 0
      then (hwRun BUTTON_USER_Pin (onSampleTick r s0) mid).debouncedButtonReleased else 1) = _
    rw [q2, f2]
    split_ifs <;> rfl
  have g3 : (onSampleTick r (hwRun BUTTON_USER_Pin (onSampleTick r s0) mid)).LED_BLUE =
      s0.LED_BLUE := by
    rw [e3]
    show (hwRun BUTTON_USER_Pin (onSampleTick r s0) mid).LED_BLUE = _
    rw [q3, f3]
  have hblue : (mainLoopBody (onSampleTick r
      (hwRun BUTTON_USER_Pin (onSampleTick r s0) mid))).LED_BLUE =
      (if r = GPIO_PinState.GPIO_PIN_RESET then !s0.LED_BLUE else s0.LED_BLUE) := by
    rw [mainLoopBody_eq]
    show (if (onSampleTick r
        (hwRun BUTTON_USER_Pin (onSampleTick r s0) mid)).debouncedButtonPressed ≠ 0
      then !(onSampleTick r (hwRun BUTTON_USER_Pin (onSampleTick r s0) mid)).LED_BLUE
      else (onSampleTick r (hwRun BUTTON_USER_Pin (onSampleTick r s0) mid)).LED_BLUE) = _
    rw [g1, g3]
    cases r with
    | GPIO_PIN_RESET => simp [GPIO_PinState.toNat]
    | GPIO_PIN_SET => simp [GPIO_PinState.toNat, hp rfl]
  have hclr : (mainLoopBody (onSampleTick r
        (hwRun BUTTON_USER_Pin (onSampleTick r s0) mid))).debouncedButtonPressed = 0 ∧
      (mainLoopBody (onSampleTick r
        (hwRun BUTTON_USER_Pin (onSampleTick r s0) mid))).debouncedButtonReleased = 0 := by
    rw [mainLoopBody_eq]
    exact ⟨rfl, rfl⟩
  refine ⟨⟨g1.trans f1.symm, g2.trans f2.symm⟩, g3, hblue, hclr, ?_⟩
  obtain ⟨r1, _, r3⟩ := hwRun_quiet BUTTON_USER_Pin mid2 _ hq2
  rw [mainLoopBody_eq (hwRun BUTTON_USER_Pin _ mid2)]
  show (if (hwRun BUTTON_USER_Pin _ mid2).debouncedButtonPressed ≠ 0
    then !(hwRun BUTTON_USER_Pin _ mid2).LED_BLUE
    else (hwRun BUTTON_USER_Pin _ mid2).LED_BLUE) = _
  rw [r1, hclr.1, r3]
  simp

/-- Witness for the amended C14: two presses debounced from startup with the
foreground stalled; the foreground then toggles the blue output once, and a
later pass (after a blink tick) leaves it alone. -/
theorem coalesced_event_witness :
    (mainLoopBody (onSampleTick GPIO_PinState.GPIO_PIN_RESET
      (hwRun 64 (onSampleTick GPIO_PinState.GPIO_PIN_RESET
        (hwRun 64 (mainInit GPIO_PinState.GPIO_PIN_SET)
          ([Event.exti 64] ++
            List.replicate 10 (Event.timElapsed TimHandle.htim6 GPIO_PinState.GPIO_PIN_RESET))))
        ([Event.exti 64] ++
          List.replicate 9 (Event.timElapsed TimHandle.htim6 GPIO_PinState.GPIO_PIN_RESET))))).LED_BLUE
      = true :=
  ((coalesced_event 64
    (hwRun 64 (mainInit GPIO_PinState.GPIO_PIN_SET)
      ([Event.exti 64] ++
        List.replicate 10 (Event.timElapsed TimHandle.htim6 GPIO_PinState.GPIO_PIN_RESET)))
    GPIO_PinState.GPIO_PIN_RESET
    ([Event.exti 64] ++
      List.replicate 9 (Event.timElapsed TimHandle.htim6 GPIO_PinState.GPIO_PIN_RESET))
    [Event.timElapsed TimHandle.htim7 GPIO_PinState.GPIO_PIN_RESET]
    (by decide) (by decide) (by decide) (by decide) (by decide)).2.2.1).trans (by decide)

/-! ### The test output after a release -/

/-- The period-elapsed callback never writes the test output. -/
theorem timerCallback_OUT_TEST (htim : TimHandle) (r : GPIO_PinState) (s : State) :
    (HAL_TIM_PeriodElapsedCallback htim r s).OUT_TEST = s.OUT_TEST := by
  cases htim with
  | htim6 =>
    have ht : HAL_TIM_PeriodElapsedCallback TimHandle.htim6 r s = onSampleTick r s := rfl
    rw [ht, onSampleTick_eq]
    split_ifs <;> rfl
  | htim7 => rfl
  | other => rfl


theorem hwRun_append (pin : Nat) (l1 l2 : List Event) :
    ∀ s : State, hwRun pin s (l1 ++ l2) = hwRun pin (hwRun pin s l1) l2 := by
  induction l1 with
  | nil => intro s; rfl
  | cons e es ih => intro s; simp only [List.cons_append, hwRun]; exact ih _

/-- Effect of one non-EXTI activity on an idle sampler: it stays idle, the
pressed flag is not set, and the test output moves only if a pressed flag is
consumed. -/
theorem hwStep_idle_noExti (pin : Nat) (s : State) (e : Event)
    (he : e.isExti = false) (hoff : s.tim6Running = false) :
    (hwStep pin s e).tim6Running = false ∧
    (s.debouncedButtonPressed = 0 →
      (hwStep pin s e).debouncedButtonPressed = 0 ∧ (hwStep pin s e).OUT_TEST = s.OUT_TEST) ∧
    (s.debouncedButtonReleased = 0 → (hwStep pin s e).debouncedButtonReleased = 0) := by
  cases e with
  | exti p => exact absurd he (by simp [Event.isExti])
  | timElapsed t r =>
    cases t with
    | htim6 =>
      have h : hwStep pin s (Event.timElapsed TimHandle.htim6 r) = s := by
        simp only [hwStep, timerEnabled, hoff, Bool.false_eq_true, if_false]
      rw [h]
      exact ⟨hoff, fun hp => ⟨hp, rfl⟩, fun hr => hr⟩
    | htim7 =>
      have h : hwStep pin s (Event.timElapsed TimHandle.htim7 r) = s ∨
          hwStep pin s (Event.timElapsed TimHandle.htim7 r) = { s with toggleGreenLED := 1 } := by
        simp only [hwStep, timerEnabled]
        split_ifs
        · right; rfl
        · left; rfl
      rcases h with h | h <;> rw [h] <;> exact ⟨hoff, fun hp => ⟨hp, rfl⟩, fun hr => hr⟩
    | other =>
      exact ⟨hoff, fun hp => ⟨hp, rfl⟩, fun hr => hr⟩
  | foreground =>
    simp only [hwStep, step]
    rw [mainLoopBody_eq]
    refine ⟨hoff, fun hp => ⟨rfl, ?_⟩, fun _ => rfl⟩
    simp [hp]

theorem hwRun_idle_noExti (pin : Nat) :
    ∀ (es : List Event) (s : State), es.any Event.isExti = false →
      s.tim6Running = false →
      (hwRun pin s es).tim6Running = false ∧
      (s.debouncedButtonPressed = 0 →
        (hwRun pin s es).debouncedButtonPressed = 0 ∧ (hwRun pin s es).OUT_TEST = s.OUT_TEST) ∧
      (s.debouncedButtonReleased = 0 → (hwRun pin s es).debouncedButtonReleased = 0) := by
  intro es
  induction es with
  | nil => intro s _ hoff; exact ⟨hoff, fun hp => ⟨hp, rfl⟩, fun hr => hr⟩
  | cons e es ih =>
    intro s hes hoff
    simp only [List.any_cons, Bool.or_eq_false_iff] at hes
    obtain ⟨a1, a2, a3⟩ := hwStep_idle_noExti pin s e hes.1 hoff
    obtain ⟨b1, b2, b3⟩ := ih (hwStep pin s e) hes.2 a1
    refine ⟨b1, fun hp => ?_, fun hr => b3 (a3 hr)⟩
    obtain ⟨c1, c2⟩ := a2 hp
    obtain ⟨d1, d2⟩ := b2 c1
    exact ⟨d1, d2.trans c2⟩

/-- Once a foreground pass has run on an idle sampler that no edge re-arms,
the released flag is clear. -/
theorem hwRun_idle_released (pin : Nat) :
    ∀ (es : List Event) (s : State), es.any Event.isExti = false →
      s.tim6Running = false → Event.foreground ∈ es →
      (hwRun pin s es).debouncedButtonReleased = 0 := by
  intro es
  induction es with
  | nil => intro s _ _ hmem; exact absurd hmem (List.not_mem_nil _)
  | cons e es ih =>
    intro s hes hoff hmem
    simp only [List.any_cons, Bool.or_eq_false_iff] at hes
    obtain ⟨a1, _, _⟩ := hwStep_idle_noExti pin s e hes.1 hoff
    by_cases hfg : e = Event.foreground
    · subst hfg
      have hclr : (hwStep pin s Event.foreground).debouncedButtonReleased = 0 := by
        simp only [hwStep, step]
        rw [mainLoopBody_eq]
      exact (hwRun_idle_noExti pin es _ hes.2 a1).2.2 hclr
    · have hmem' : Event.foreground ∈ es := by
        rcases List.mem_cons.mp hmem with h | h
        · exact absurd h.symm hfg
        · exact h
      exact ih (hwStep pin s e) hes.2 a1 hmem'

/-- A stretch without edges that ends with the sampler still armed contains no
completion: the pressed flag stays clear and the test output stays high. -/
theorem hwRun_armed_noExti (pin : Nat) :
    ∀ (es : List Event) (s : State), es.any Event.isExti = false →
      s.debouncedButtonPressed = 0 → s.OUT_TEST = true →
      (hwRun pin s es).tim6Running = true →
      (hwRun pin s es).debouncedButtonPressed = 0 ∧ (hwRun pin s es).OUT_TEST = true := by
  intro es
  induction es with
  | nil => intro s _ hp ht _; exact ⟨hp, ht⟩
  | cons e es ih =>
    intro s hes hp ht harm
    simp only [List.any_cons, Bool.or_eq_false_iff] at hes
    have hkeep : (hwStep pin s e).debouncedButtonPressed = 0 ∧ (hwStep pin s e).OUT_TEST = true := by
      cases e with
      | exti p => exact absurd hes.1 (by simp [Event.isExti])
      | timElapsed t r =>
        cases t with
        | htim6 =>
          by_cases hon : s.tim6Running = true
          · have h : hwStep pin s (Event.timElapsed TimHandle.htim6 r) = onSampleTick r s := by
              simp only [hwStep, timerEnabled, hon, if_true]
              rfl
            by_cases hdone : 10 ≤ sampleCount s r
            · exfalso
              have hoff : (hwStep pin s (Event.timElapsed TimHandle.htim6 r)).tim6Running = false := by
                rw [h, onSampleTick_of_ge s r hdone]
              have hend := (hwRun_idle_noExti pin es _ hes.2 hoff).1
              have harm' : (hwRun pin (hwStep pin s (Event.timElapsed TimHandle.htim6 r)) es).tim6Running
                  = true := harm
              rw [hend] at harm'
              exact absurd harm' (by simp)
            · rw [h, onSampleTick_of_lt s r (Nat.not_le.mp hdone)]
              exact ⟨hp, ht⟩
          · have h : hwStep pin s (Event.timElapsed TimHandle.htim6 r) = s := by
              simp only [hwStep, timerEnabled, hon, if_false, Bool.false_eq_true]
            rw [h]
            exact ⟨hp, ht⟩
        | htim7 =>
          have h : hwStep pin s (Event.timElapsed TimHandle.htim7 r) = s ∨
              hwStep pin s (Event.timElapsed TimHandle.htim7 r) = { s with toggleGreenLED := 1 } := by
            simp only [hwStep, timerEnabled]
            split_ifs
            · right; rfl
            · left; rfl
          rcases h with h | h <;> rw [h] <;> exact ⟨hp, ht⟩
        | other => exact ⟨hp, ht⟩
      | foreground =>
        simp only [hwStep, step]
        rw [mainLoopBody_eq]
        refine ⟨rfl, ?_⟩
        simp [hp, ht]
    exact ih (hwStep pin s e) hes.2 hkeep.1 hkeep.2 harm

/-- The test output stays high as long as no foreground pass consumes a
pressed flag. -/
theorem hwRun_test_high (pin : Nat) :
    ∀ (es : List Event) (s : State), noPressedConsumed pin s es = true →
      s.OUT_TEST = true → (hwRun pin s es).OUT_TEST = true := by
  intro es
  induction es with
  | nil => intro s _ ht; exact ht
  | cons e es ih =>
    intro s hq ht
    simp only [noPressedConsumed, Bool.and_eq_true] at hq
    refine ih (hwStep pin s e) hq.2 ?_
    cases e with
    | exti p =>
      simp only [hwStep, step]
      rw [HAL_GPIO_EXTI_Callback_eq]
      split_ifs
      · rfl
      · exact ht
    | timElapsed t r =>
      have h := (timerCallback_OUT_TEST t r s)
      simp only [hwStep]
      split_ifs
      · rw [h]; exact ht
      · exact ht
    | foreground =>
      have hp : s.debouncedButtonPressed = 0 := by simpa using hq.1
      simp only [hwStep, step]
      rw [mainLoopBody_eq]
      simp [hp, ht]

/-- C18: the test output is not lowered by a release.  From a state with the
pressed flag clear, an edge is followed by sampler ticks (while armed), blink
ticks and foreground passes `pre` that leave the sampler armed, then by the
tick that completes the debounce on the reading 1, then by further such
activity `post` without a new edge.  The completion sets the released flag,
which the first foreground pass of `post` consumes; afterwards the sampler is
idle, the pressed flag is clear and the test output is still high.  It stays
high through any later activity `later` in which no foreground pass consumes
a pressed flag, and the next edge leaves it as it is (no rising edge). -/
theorem test_output_after_release (BUTTON_USER_Pin : Nat) (s : State)
    (pre post later : List Event)
    (hp : s.debouncedButtonPressed = 0)
    (hpre : pre.any Event.isExti = false) (hpost : post.any Event.isExti = false)
    (harm : (hwRun BUTTON_USER_Pin (onButtonEdge BUTTON_USER_Pin s) pre).tim6Running = true)
    (hdone : 10 ≤ sampleCount (hwRun BUTTON_USER_Pin (onButtonEdge BUTTON_USER_Pin s) pre)
      GPIO_PinState.GPIO_PIN_SET)
    (hlater : noPressedConsumed BUTTON_USER_Pin
      (hwRun BUTTON_USER_Pin (onButtonEdge BUTTON_USER_Pin s)
        (pre ++ [Event.timElapsed TimHandle.htim6 GPIO_PinState.GPIO_PIN_SET] ++ post))
      later = true) :
    (hwRun BUTTON_USER_Pin (onButtonEdge BUTTON_USER_Pin s)
      (pre ++ [Event.timElapsed TimHandle.htim6 GPIO_PinState.GPIO_PIN_SET])).debouncedButtonReleased
      = 1 ∧
    (Event.foreground ∈ post →
      (hwRun BUTTON_USER_Pin (onButtonEdge BUTTON_USER_Pin s)
        (pre ++ [Event.timElapsed TimHandle.htim6 GPIO_PinState.GPIO_PIN_SET] ++ post)).debouncedButtonReleased
        = 0) ∧
    (hwRun BUTTON_USER_Pin (onButtonEdge BUTTON_USER_Pin s)
      (pre ++ [Event.timElapsed TimHandle.htim6 GPIO_PinState.GPIO_PIN_SET] ++ post)).tim6Running
      = false ∧
    (hwRun BUTTON_USER_Pin (onButtonEdge BUTTON_USER_Pin s)
      (pre ++ [Event.timElapsed TimHandle.htim6 GPIO_PinState.GPIO_PIN_SET] ++ post)).debouncedButtonPressed
      = 0 ∧
    (hwRun BUTTON_USER_Pin (onButtonEdge BUTTON_USER_Pin s)
      (pre ++ [Event.timElapsed TimHandle.htim6 GPIO_PinState.GPIO_PIN_SET] ++ post)).OUT_TEST
      = true ∧
    (onButtonEdge BUTTON_USER_Pin
      (hwRun BUTTON_USER_Pin (onButtonEdge BUTTON_USER_Pin s)
        (pre ++ [Event.timElapsed TimHandle.htim6 GPIO_PinState.GPIO_PIN_SET] ++ post))).OUT_TEST
      = (hwRun BUTTON_USER_Pin (onButtonEdge BUTTON_USER_Pin s)
        (pre ++ [Event.timElapsed TimHandle.htim6 GPIO_PinState.GPIO_PIN_SET] ++ post)).OUT_TEST ∧
    (hwRun BUTTON_USER_Pin
      (hwRun BUTTON_USER_Pin (onButtonEdge BUTTON_USER_Pin s)
        (pre ++ [Event.timElapsed TimHandle.htim6 GPIO_PinState.GPIO_PIN_SET] ++ post))
      later).OUT_TEST = true := by
  have hp1 : (onButtonEdge BUTTON_USER_Pin s).debouncedButtonPressed = 0 := by
    rw [onButtonEdge_eq]; exact hp
  have ht1 : (onButtonEdge BUTTON_USER_Pin s).OUT_TEST = true := by
    rw [onButtonEdge_eq]
  obtain ⟨hpa, hta⟩ := hwRun_armed_noExti BUTTON_USER_Pin pre _ hpre hp1 ht1 harm
  have hb : hwRun BUTTON_USER_Pin (onButtonEdge BUTTON_USER_Pin s)
      (pre ++ [Event.timElapsed TimHandle.htim6 GPIO_PinState.GPIO_PIN_SET]) =
      onSampleTick GPIO_PinState.GPIO_PIN_SET
        (hwRun BUTTON_USER_Pin (onButtonEdge BUTTON_USER_Pin s) pre) := by
    rw [hwRun_append]
    simp only [hwRun, hwStep, timerEnabled, harm, if_true]
    rfl
  have hge := onSampleTick_of_ge _ GPIO_PinState.GPIO_PIN_SET hdone
  have hboff : (hwRun BUTTON_USER_Pin (onButtonEdge BUTTON_USER_Pin s)
      (pre ++ [Event.timElapsed TimHandle.htim6 GPIO_PinState.GPIO_PIN_SET])).tim6Running = false := by
    rw [hb, hge]
  have hbp : (hwRun BUTTON_USER_Pin (onButtonEdge BUTTON_USER_Pin s)
      (pre ++ [Event.timElapsed TimHandle.htim6 GPIO_PinState.GPIO_PIN_SET])).debouncedButtonPressed
      = 0 := by
    rw [hb, hge]
    exact hpa
  have hbt : (hwRun BUTTON_USER_Pin (onButtonEdge BUTTON_USER_Pin s)
      (pre ++ [Event.timElapsed TimHandle.htim6 GPIO_PinState.GPIO_PIN_SET])).OUT_TEST = true := by
    rw [hb, hge]
    exact hta
  have hbr : (hwRun BUTTON_USER_Pin (onButtonEdge BUTTON_USER_Pin s)
      (pre ++ [Event.timElapsed TimHandle.htim6 GPIO_PinState.GPIO_PIN_SET])).debouncedButtonReleased
      = 1 := by
    rw [hb, hge]
    rfl
  obtain ⟨c1, c2, _⟩ := hwRun_idle_noExti BUTTON_USER_Pin post _ hpost hboff
  obtain ⟨c3, c4⟩ := c2 hbp
  have hsplit : hwRun BUTTON_USER_Pin (onButtonEdge BUTTON_USER_Pin s)
      (pre ++ [Event.timElapsed TimHandle.htim6 GPIO_PinState.GPIO_PIN_SET] ++ post) =
      hwRun BUTTON_USER_Pin (hwRun BUTTON_USER_Pin (onButtonEdge BUTTON_USER_Pin s)
        (pre ++ [Event.timElapsed TimHandle.htim6 GPIO_PinState.GPIO_PIN_SET])) post :=
    hwRun_append _ _ _ _
  have htest : (hwRun BUTTON_USER_Pin (onButtonEdge BUTTON_USER_Pin s)
      (pre ++ [Event.timElapsed TimHandle.htim6 GPIO_PinState.GPIO_PIN_SET] ++ post)).OUT_TEST
      = true := by
    rw [hsplit, c4, hbt]
  refine ⟨hbr, ?_, ?_, ?_, htest, ?_, ?_⟩
  · intro hmem
    rw [hsplit]
    exact hwRun_idle_released BUTTON_USER_Pin post _ hpost hboff hmem
  · rw [hsplit]; exact c1
  · rw [hsplit]; exact c3
  · rw [onButtonEdge_eq, htest]
  · exact hwRun_test_high BUTTON_USER_Pin later _ hlater htest

/-- Witness for C18: from the state left by a dispatched press (test output
low), a bouncy release is debounced and dispatched; the test output raised by
the release edge is still high, also after the next press edge and its
bouncing. -/
theorem test_output_after_release_witness :
    (hwRun 64 (onButtonEdge 64 (mainInit GPIO_PinState.GPIO_PIN_RESET))
      ([Event.timElapsed TimHandle.htim6 GPIO_PinState.GPIO_PIN_SET, Event.foreground] ++
        List.replicate 9 (Event.timElapsed TimHandle.htim6 GPIO_PinState.GPIO_PIN_SET) ++
        [Event.timElapsed TimHandle.htim6 GPIO_PinState.GPIO_PIN_SET] ++
        [Event.foreground, Event.timElapsed TimHandle.htim7 GPIO_PinState.GPIO_PIN_SET])).OUT_TEST
      = true ∧
    (hwRun 64 (hwRun 64 (onButtonEdge 64 (mainInit GPIO_PinState.GPIO_PIN_RESET))
      ([Event.timElapsed TimHandle.htim6 GPIO_PinState.GPIO_PIN_SET, Event.foreground] ++
        List.replicate 9 (Event.timElapsed TimHandle.htim6 GPIO_PinState.GPIO_PIN_SET) ++
        [Event.timElapsed TimHandle.htim6 GPIO_PinState.GPIO_PIN_SET] ++
        [Event.foreground, Event.timElapsed TimHandle.htim7 GPIO_PinState.GPIO_PIN_SET]))
      [Event.exti 64, Event.timElapsed TimHandle.htim6 GPIO_PinState.GPIO_PIN_RESET,
        Event.foreground]).OUT_TEST = true :=
  ⟨(test_output_after_release 64 (mainInit GPIO_PinState.GPIO_PIN_RESET)
      ([Event.timElapsed TimHandle.htim6 GPIO_PinState.GPIO_PIN_SET, Event.foreground] ++
        List.replicate 9 (Event.timElapsed TimHandle.htim6 GPIO_PinState.GPIO_PIN_SET))
      [Event.foreground, Event.timElapsed TimHandle.htim7 GPIO_PinState.GPIO_PIN_SET]
      [Event.exti 64, Event.timElapsed TimHandle.htim6 GPIO_PinState.GPIO_PIN_RESET,
        Event.foreground]
      (by decide) (by decide) (by decide) (by decide) (by decide) (by decide)).2.2.2.2.1,
    (test_output_after_release 64 (mainInit GPIO_PinState.GPIO_PIN_RESET)
      ([Event.timElapsed TimHandle.htim6 GPIO_PinState.GPIO_PIN_SET, Event.foreground] ++
        List.replicate 9 (Event.timElapsed TimHandle.htim6 GPIO_PinState.GPIO_PIN_SET))
      [Event.foreground, Event.timElapsed TimHandle.htim7 GPIO_PinState.GPIO_PIN_SET]
      [Event.exti 64, Event.timElapsed TimHandle.htim6 GPIO_PinState.GPIO_PIN_RESET,
        Event.foreground]
      (by decide) (by decide) (by decide) (by decide) (by decide) (by decide)).2.2.2.2.2.2⟩

/-! ### The exact completion point -/

theorem replicate_succ_append {α : Type} (j : Nat) (x : α) (ys : List α) :
    List.replicate (j + 1) x ++ ys = x :: (List.replicate j x ++ ys) := rfl

theorem headRun_replicate_append {α : Type} [DecidableEq α] (x : α) (ys : List α) :
    ∀ j : Nat, headRun x (List.replicate j x ++ ys) = j + headRun x ys := by
  intro j
  induction j with
  | zero => simp
  | succ j ih =>
    rw [replicate_succ_append]
    simp only [headRun, if_true]
    rw [ih]
    omega

theorem hasRun_replicate_append_ne {α : Type} [DecidableEq α] (k : Nat) (x : α) (ys : List α)
    (hy : headRun x ys = 0) :
    ∀ j : Nat, j < k → hasRun k (List.replicate j x ++ ys) = hasRun k ys := by
  intro j
  induction j with
  | zero => intro _; simp
  | succ j ih =>
    intro hj
    have hlt : ¬ k ≤ j + 1 := by omega
    rw [replicate_succ_append]
    simp only [hasRun]
    rw [headRun_replicate_append, hy, ih (by omega)]
    simp [hlt]

theorem hasRun_replicate_append_ge {α : Type} [DecidableEq α] (k : Nat) (x : α) (ys : List α)
    (j : Nat) (hj : 0 < j) (hk : k ≤ j + headRun x ys) :
    hasRun k (List.replicate j x ++ ys) = true := by
  obtain ⟨i, rfl⟩ : ∃ i, j = i + 1 := ⟨j - 1, by omega⟩
  have hle : k ≤ i + headRun x ys + 1 := by omega
  rw [replicate_succ_append]
  simp only [hasRun]
  rw [headRun_replicate_append]
  simp [hle]

/-- What the sampler has done after the samples `l`, from an armed state with
count `c` holding the reading `x`: it has completed exactly when `c + 1`
copies of `x` followed by the samples contain eleven equal consecutive
readings. -/
theorem feed_armed_iff :
    ∀ (l : List GPIO_PinState) (s : State), s.tim6Running = true → s.debounceCounter < 10 →
      (hasRun 11 (List.replicate (s.debounceCounter + 1) s.currentButton
          ++ l.map GPIO_PinState.toNat) = true →
        (feed s l).tim6Running = false ∧
          ((feed s l).debouncedButtonPressed = 1 ∨ (feed s l).debouncedButtonReleased = 1)) ∧
      (hasRun 11 (List.replicate (s.debounceCounter + 1) s.currentButton
          ++ l.map GPIO_PinState.toNat) = false →
        (feed s l).tim6Running = true ∧
          (feed s l).debouncedButtonPressed = s.debouncedButtonPressed ∧
          (feed s l).debouncedButtonReleased = s.debouncedButtonReleased) := by
  intro l
  induction l with
  | nil =>
    intro s harm hc
    have hno : hasRun 11 (List.replicate (s.debounceCounter + 1) s.currentButton
        ++ ([] : List GPIO_PinState).map GPIO_PinState.toNat) = false := by
      rw [List.map_nil, hasRun_replicate_append_ne 11 s.currentButton [] rfl _ (by omega)]
      rfl
    rw [hno]
    exact ⟨fun h => absurd h (by simp), fun _ => ⟨harm, rfl, rfl⟩⟩
  | cons r rs ih =>
    intro s harm hc
    have hstep : feed s (r :: rs) = feed (onSampleTick r s) rs := by
      simp only [feed, harm, if_true]
    rw [hstep, List.map_cons]
    by_cases hr : r.toNat = s.currentButton
    · have hcount : sampleCount s r = s.debounceCounter + 1 := by
        simp only [sampleCount, hr, if_true]
        exact Nat.mod_eq_of_lt (by omega)
      by_cases hdone : 10 ≤ s.debounceCounter + 1
      · have htick := onSampleTick_of_ge s r (by rw [hcount]; exact hdone)
        have hyes : hasRun 11 (List.replicate (s.debounceCounter + 1) s.currentButton
            ++ r.toNat :: rs.map GPIO_PinState.toNat) = true := by
          apply hasRun_replicate_append_ge 11 _ _ _ (Nat.succ_pos _)
          rw [hr]
          simp only [headRun, if_true]
          omega
        rw [hyes, feed_disarmed _ _ (by rw [htick]), htick]
        refine ⟨fun _ => ⟨rfl, ?_⟩, fun h => absurd h (by simp)⟩
        by_cases h0 : r.toNat = 0
        · left; simp [h0]
        · right; simp [h0]
      · have htick := onSampleTick_of_lt s r (by rw [hcount]; omega)
        rw [hcount] at htick
        have hlist : List.replicate (s.debounceCounter + 1) s.currentButton
            ++ r.toNat :: rs.map GPIO_PinState.toNat =
            List.replicate (s.debounceCounter + 1 + 1) r.toNat ++ rs.map GPIO_PinState.toNat := by
          rw [hr, List.replicate_succ' (s.debounceCounter + 1), List.append_assoc]
          rfl
        have hih := ih (onSampleTick r s) (by rw [htick]; exact harm)
          (by rw [htick]; show s.debounceCounter + 1 < 10; omega)
        rw [htick] at hih
        rw [hlist, htick]
        exact hih
    · have htick := onSampleTick_mismatch s r hr
      have hhead : headRun s.currentButton (r.toNat :: rs.map GPIO_PinState.toNat) = 0 := by
        simp only [headRun, hr, if_false]
      have hlist : hasRun 11 (List.replicate (s.debounceCounter + 1) s.currentButton
          ++ r.toNat :: rs.map GPIO_PinState.toNat) =
          hasRun 11 (List.replicate (0 + 1) r.toNat ++ rs.map GPIO_PinState.toNat) := by
        rw [hasRun_replicate_append_ne 11 _ _ hhead _ (by omega)]
        rfl
      have hih := ih (onSampleTick r s) (by rw [htick]; exact harm)
        (by rw [htick]; exact Nat.zero_lt_succ 9)
      rw [htick] at hih
      rw [hlist, htick]
      exact hih

theorem headRun_split {α : Type} [DecidableEq α] (v : α) :
    ∀ l : List α, l = List.replicate (headRun v l) v ++ l.drop (headRun v l) := by
  intro l
  induction l with
  | nil => rfl
  | cons x xs ih =>
    by_cases hx : x = v
    · subst hx
      simp only [headRun, if_true]
      rw [replicate_succ_append, List.drop_succ_cons, ← ih]
    · simp [headRun, hx]

/-- The scan `hasRun` finds exactly the windows of `k` equal consecutive
entries. -/
theorem hasRun_iff_window (k : Nat) (hk : 0 < k) (l : List Nat) :
    hasRun k l = true ↔ HasWindow k l := by
  constructor
  · induction l with
    | nil => intro h; exact absurd h (by simp [hasRun])
    | cons x xs ih =>
      intro h
      simp only [hasRun, Bool.or_eq_true, decide_eq_true_eq] at h
      rcases h with h | h
      · refine ⟨[], x, List.replicate (headRun x xs + 1 - k) x ++ xs.drop (headRun x xs), ?_⟩
        have hsplit := headRun_split x xs
        have hrep : List.replicate (headRun x xs + 1) x =
            List.replicate k x ++ List.replicate (headRun x xs + 1 - k) x := by
          rw [← List.replicate_add]
          congr 1
          omega
        calc x :: xs = x :: (List.replicate (headRun x xs) x ++ xs.drop (headRun x xs)) := by
              rw [← hsplit]
          _ = List.replicate (headRun x xs + 1) x ++ xs.drop (headRun x xs) := rfl
          _ = [] ++ List.replicate k x ++
                (List.replicate (headRun x xs + 1 - k) x ++ xs.drop (headRun x xs)) := by
              rw [hrep, List.nil_append, List.append_assoc]
      · obtain ⟨a, v, b, hab⟩ := ih h
        exact ⟨x :: a, v, b, by rw [hab]; rfl⟩
  · rintro ⟨a, v, b, rfl⟩
    induction a with
    | nil =>
      rw [List.nil_append]
      exact hasRun_replicate_append_ge k v b k hk (Nat.le_add_right k _)
    | cons x a ih =>
      have hcons : x :: a ++ List.replicate k v ++ b = x :: (a ++ List.replicate k v ++ b) := rfl
      rw [hcons]
      simp only [hasRun, Bool.or_eq_true]
      exact Or.inr ih

/-- A window in a list extended by one entry lies in the old list or ends at
the new entry. -/
theorem hasWindow_snoc (k : Nat) (xs : List Nat) (y : Nat) :
    HasWindow k (xs ++ [y]) ↔ HasWindow k xs ∨ EndsInWindow k (xs ++ [y]) := by
  constructor
  · rintro ⟨a, v, b, hab⟩
    rcases List.eq_nil_or_concat b with hb | ⟨b', z, hb⟩
    · subst hb
      right
      exact ⟨a, v, by rw [hab, List.append_nil]⟩
    · subst hb
      left
      have h' : xs ++ [y] = (a ++ List.replicate k v ++ b') ++ [z] := by
        rw [hab, List.concat_eq_append]
        simp only [List.append_assoc]
      exact ⟨a, v, b', List.append_inj_left' h' rfl⟩
  · rintro (⟨a, v, b, hab⟩ | ⟨a, v, hab⟩)
    · exact ⟨a, v, b ++ [y], by rw [hab, List.append_assoc]⟩
    · exact ⟨a, v, [], by rw [hab, List.append_nil]⟩

theorem readings_take_succ (s : State) (l : List GPIO_PinState) (t : Nat) (ht : t < l.length) :
    readings s (l.take (t + 1)) = readings s (l.take t) ++ [(l.get ⟨t, ht⟩).toNat] := by
  simp only [readings]
  rw [List.take_succ, List.getElem?_eq_getElem ht]
  simp only [Option.toList, List.map_append, List.map_cons, List.map_nil, List.cons_append]
  rfl

theorem hasRun_replicate_false {α : Type} [DecidableEq α] (k j : Nat) (x : α) (hj : j < k) :
    hasRun k (List.replicate j x) = false := by
  have h := hasRun_replicate_append_ne k x [] rfl j hj
  rw [List.append_nil] at h
  rw [h]
  rfl

theorem headRun_replicate_ne {α : Type} [DecidableEq α] (x y : α) (hxy : y ≠ x) (n : Nat) :
    headRun x (List.replicate n y) = 0 := by
  cases n with
  | zero => rfl
  | succ n => simp [List.replicate_succ, headRun, hxy]

/-- A block of ten samples `v` fed to an armed sampler that holds a different
reading completes nothing. -/
theorem feed_ten_after_mismatch (s : State) (v : GPIO_PinState)
    (harm : s.tim6Running = true) (hc : s.debounceCounter < 10)
    (hne : v.toNat ≠ s.currentButton) :
    (feed s (List.replicate 10 v)).tim6Running = true ∧
    (feed s (List.replicate 10 v)).debouncedButtonPressed = s.debouncedButtonPressed ∧
    (feed s (List.replicate 10 v)).debouncedButtonReleased = s.debouncedButtonReleased := by
  apply (feed_armed_iff (List.replicate 10 v) s harm hc).2
  rw [List.map_replicate,
    hasRun_replicate_append_ne 11 s.currentButton _
      (headRun_replicate_ne s.currentButton v.toNat hne 10) _ (by omega)]
  exact hasRun_replicate_false 11 10 v.toNat (by decide)

/-- From a freshly armed sampler: it has completed after the samples `l`
exactly when the readings (stale value first) contain eleven equal consecutive
readings. -/
theorem feed_fresh (s : State) (l : List GPIO_PinState)
    (harm : s.tim6Running = true) (hc : s.debounceCounter = 0) :
    (HasWindow 11 (readings s l) →
      (feed s l).tim6Running = false ∧
        ((feed s l).debouncedButtonPressed = 1 ∨ (feed s l).debouncedButtonReleased = 1)) ∧
    (¬ HasWindow 11 (readings s l) →
      (feed s l).tim6Running = true ∧
        (feed s l).debouncedButtonPressed = s.debouncedButtonPressed ∧
        (feed s l).debouncedButtonReleased = s.debouncedButtonReleased) := by
  have h := feed_armed_iff l s harm (by rw [hc]; exact Nat.zero_lt_succ 9)
  have hlist : List.replicate (s.debounceCounter + 1) s.currentButton
      ++ l.map GPIO_PinState.toNat = readings s l := by
    rw [hc]
    rfl
  rw [hlist] at h
  constructor
  · intro hw
    exact h.1 ((hasRun_iff_window 11 (by decide) _).mpr hw)
  · intro hw
    apply h.2
    cases hrun : hasRun 11 (readings s l) with
    | false => rfl
    | true => exact absurd ((hasRun_iff_window 11 (by decide) _).mp hrun) hw

/-- C17: for every state with the sampler armed and the counter at 0 and
every sample sequence fed one per tick, with the value held in
`currentButton` as reading 0: the debounce completes at tick `t + 1` (armed
after `t` ticks, disarmed after `t + 1`, an event flag set) if and only if
the readings 0..t+1 end in eleven equal readings and the readings 0..t
contain no eleven equal consecutive readings, that is, `t + 1` is the least
index at which eleven equal readings end.  In particular ten equal samples
right after a different held value, or right after a different sample, emit
no event. -/
theorem exact_completion_point (s : State) (l : List GPIO_PinState) (t : Nat)
    (harm : s.tim6Running = true) (hc : s.debounceCounter = 0) (ht : t < l.length) :
    (((feed s (l.take t)).tim6Running = true ∧ (feed s (l.take (t + 1))).tim6Running = false) ↔
      (EndsInWindow 11 (readings s (l.take (t + 1))) ∧ ¬ HasWindow 11 (readings s (l.take t)))) ∧
    ((feed s (l.take (t + 1))).tim6Running = false →
      (feed s (l.take (t + 1))).debouncedButtonPressed = 1 ∨
        (feed s (l.take (t + 1))).debouncedButtonReleased = 1) ∧
    (∀ v : GPIO_PinState, v.toNat ≠ s.currentButton →
      (feed s (List.replicate 10 v)).tim6Running = true ∧
      (feed s (List.replicate 10 v)).debouncedButtonPressed = s.debouncedButtonPressed ∧
      (feed s (List.replicate 10 v)).debouncedButtonReleased = s.debouncedButtonReleased) ∧
    (∀ (pre : List GPIO_PinState) (w v : GPIO_PinState), v ≠ w →
      (feed s (pre ++ [w])).tim6Running = true →
      (feed s (pre ++ [w] ++ List.replicate 10 v)).tim6Running = true ∧
      (feed s (pre ++ [w] ++ List.replicate 10 v)).debouncedButtonPressed =
        (feed s (pre ++ [w])).debouncedButtonPressed ∧
      (feed s (pre ++ [w] ++ List.replicate 10 v)).debouncedButtonReleased =
        (feed s (pre ++ [w])).debouncedButtonReleased) := by
  have hA := feed_fresh s (l.take t) harm hc
  have hB := feed_fresh s (l.take (t + 1)) harm hc
  have hsnoc := hasWindow_snoc 11 (readings s (l.take t)) (l.get ⟨t, ht⟩).toNat
  rw [← readings_take_succ s l t ht] at hsnoc
  refine ⟨⟨?_, ?_⟩, ?_, ?_, ?_⟩
  · rintro ⟨h1, h2⟩
    have hno : ¬ HasWindow 11 (readings s (l.take t)) := by
      intro hw
      rw [(hA.1 hw).1] at h1
      exact absurd h1 (by simp)
    have hyes : HasWindow 11 (readings s (l.take (t + 1))) := by
      by_contra hw
      rw [(hB.2 hw).1] at h2
      exact absurd h2 (by simp)
    rcases hsnoc.mp hyes with h | h
    · exact absurd h hno
    · exact ⟨h, hno⟩
  · rintro ⟨h1, h2⟩
    exact ⟨(hA.2 h2).1, (hB.1 (hsnoc.mpr (Or.inr h1))).1⟩
  · intro hoff
    by_cases hw : HasWindow 11 (readings s (l.take (t + 1)))
    · exact (hB.1 hw).2
    · rw [(hB.2 hw).1] at hoff
      exact absurd hoff (by simp)
  · intro v hv
    exact feed_ten_after_mismatch s v harm (by rw [hc]; exact Nat.zero_lt_succ 9) hv
  · intro pre w v hvw hon
    have hstep : feed s (pre ++ [w]) =
        if (feed s pre).tim6Running then onSampleTick w (feed s pre) else feed s pre := by
      rw [feed_append]
      rfl
    have hpre : (feed s pre).tim6Running = true := by
      by_contra hoff
      rw [hstep, if_neg hoff] at hon
      exact hoff hon
    rw [if_pos hpre] at hstep
    have hcur : (feed s (pre ++ [w])).currentButton = w.toNat := by
      rw [hstep, onSampleTick_eq]
      split_ifs <;> rfl
    have hcnt : (feed s (pre ++ [w])).debounceCounter < 10 := by
      rw [hstep]
      exact onSampleTick_counter_lt _ w
    rw [feed_append (pre ++ [w]) (List.replicate 10 v) s]
    exact feed_ten_after_mismatch _ v hon hcnt
      (by rw [hcur]; exact toNat_ne v w hvw)

/-- Witness for C17: from startup with the line idle at 1, an edge and twelve
samples of 0; the debounce completes at tick 11 and not at tick 10. -/
theorem exact_completion_point_witness :
    (feed (onButtonEdge 64 (mainInit GPIO_PinState.GPIO_PIN_SET))
      ((List.replicate 12 GPIO_PinState.GPIO_PIN_RESET).take 10)).tim6Running = true ∧
    (feed (onButtonEdge 64 (mainInit GPIO_PinState.GPIO_PIN_SET))
      ((List.replicate 12 GPIO_PinState.GPIO_PIN_RESET).take 11)).tim6Running = false ∧
    EndsInWindow 11 (readings (onButtonEdge 64 (mainInit GPIO_PinState.GPIO_PIN_SET))
      ((List.replicate 12 GPIO_PinState.GPIO_PIN_RESET).take 11)) :=
  ⟨by decide, by decide,
    ((exact_completion_point (onButtonEdge 64 (mainInit GPIO_PinState.GPIO_PIN_SET))
      (List.replicate 12 GPIO_PinState.GPIO_PIN_RESET) 10 (by decide) (by decide)
      (by decide)).1.mp ⟨by decide, by decide⟩).1⟩

end Blinky
